import Mathlib

/-!
Verification development for a browser-automation agent.

The development shallowly embeds the Python sources of the repository
(`agent.py`, `playwright_controller.py`, `gemini_client.py`) into Lean:
Python values flowing through the program are modelled by the inductive
type `JVal` (`None` is `JVal.null`, numbers are rationals, dicts are
insertion-ordered association lists with unique keys), fallible
operations return `Except`, and the external browser driver and the
external language-model service are abstract state-passing operation
records supplied as parameters.
-/

/-- Characters are the unit of all modelled Python strings. -/
abbrev Str := List Char

/-- Model of Python runtime values as they occur in this program:
`null` is Python `None`, `num` models Python numbers (ints and floats
are collapsed into rationals), `s` strings, `b` booleans, `arr` lists
and `obj` dicts (insertion-ordered association lists; all dicts built
by the embedded code have unique keys). -/
inductive JVal where
  | null : JVal
  | b (v : Bool) : JVal
  | num (v : ℚ) : JVal
  | s (v : Str) : JVal
  | arr (xs : List JVal) : JVal
  | obj (kvs : List (Str × JVal)) : JVal

namespace JVal

/-- Python truthiness: `None`, `False`, `0`, `""`, `[]`, `{}` are falsy. -/
def truthy : JVal → Bool
  | .null => false
  | .b v => v
  | .num v => v ≠ 0
  | .s v => ¬ v.isEmpty
  | .arr xs => ¬ xs.isEmpty
  | .obj kvs => ¬ kvs.isEmpty

/-- Association-list lookup for dict keys (keys are unique by
construction, so first match is the binding). -/
def lookupKey (kvs : List (Str × JVal)) (k : Str) : Option JVal :=
  match kvs with
  | [] => none
  | (k', v) :: rest => if k' = k then some v else lookupKey rest k

/-- Python `d.get(k, default)`. Only meaningful on `obj`; callers below
only apply it after an `isObj` guard mirroring the source's own
`isinstance` checks or crash modelling. -/
def getD (v : JVal) (k : Str) (dflt : JVal) : JVal :=
  match v with
  | .obj kvs => (lookupKey kvs k).getD dflt
  | _ => dflt

/-- Python `d.get(k)` (default `None`). -/
def get (v : JVal) (k : Str) : JVal := v.getD k .null

/-- Python `k in d` for dicts. -/
def hasKey (v : JVal) (k : Str) : Bool :=
  match v with
  | .obj kvs => (lookupKey kvs k).isSome
  | _ => false

/-- Whether the value is a Python dict (`isinstance(x, dict)`). -/
def isObj : JVal → Bool
  | .obj _ => true
  | _ => false

/-- Whether the value is a Python list (`isinstance(x, list)`). -/
def isArr : JVal → Bool
  | .arr _ => true
  | _ => false

/-- Whether the value is a Python string (`isinstance(x, str)`). -/
def isStr : JVal → Bool
  | .s _ => true
  | _ => false

/-- Python `a or b`: first truthy operand, else the second operand. -/
def pyOr (a bv : JVal) : JVal := if a.truthy then a else bv

/-- Dict insertion with Python semantics: an existing key keeps its
position and takes the new value, a fresh key is appended. -/
def objInsert (kvs : List (Str × JVal)) (k : Str) (v : JVal) :
    List (Str × JVal) :=
  match kvs with
  | [] => [(k, v)]
  | (k', v') :: rest =>
    if k' = k then (k', v) :: rest else (k', v') :: objInsert rest k v

end JVal

/-- Modelled Python exceptions that escape the embedded fragments:
`attrError` for attribute access on a value lacking it (e.g. `.get` on a
non-dict), `typeError` for type-confused library calls (e.g. `re.search`
on a non-string). -/
inductive PyExn where
  | attrError : PyExn
  | typeError : PyExn
  | pageError (msg : Str) : PyExn
  deriving DecidableEq, Repr

/- ----------------------------------------------------------------
Agent._clean_url  (src/Code/agent.py lines 24-33)
---------------------------------------------------------------- -/

/-- The whitespace characters stripped by Python `str.strip()` (ASCII
range, which is all that occurs here). -/
def pyIsSpace (c : Char) : Bool :=
  c = ' ' ∨ c = '\t' ∨ c = '\n' ∨ c = '\r' ∨ c = '\x0b' ∨ c = '\x0c'

/-- The junk characters stripped by `strip("`'\"")`: backtick,
apostrophe, double quote. -/
def isQuoteJunk (c : Char) : Bool :=
  c = '\x60' ∨ c = '\x27' ∨ c = '\x22'

/-- Python `s.strip(chars)`: remove the characters satisfying `p` from
both ends. -/
def stripChars (p : Char → Bool) (l : Str) : Str :=
  ((l.dropWhile p).reverse.dropWhile p).reverse

/-- The preprocessing of `_clean_url`: `url.strip().strip("`'\"")`. -/
def stripUrl (l : Str) : Str :=
  stripChars isQuoteJunk (stripChars pyIsSpace l)

/-- Python `s.lower().startswith("http")` on a character list. -/
def startsWithHttp (l : Str) : Bool :=
  ['h', 't', 't', 'p'].isPrefixOf (l.map Char.toLower)

/-- `Agent._clean_url` on a string argument (agent.py lines 24-33):
empty input is returned as empty, the input is stripped of whitespace
and surrounding backtick/quote junk, anything not starting with `http`
(case-insensitively) is rejected as `""`, and accepted URLs have every
space replaced by `%20` and every backslash removed. -/
def clean_url (url : Str) : Str :=
  if url.isEmpty then []
  else
    let u := stripUrl url
    if ¬ startsWithHttp u then []
    else
      ((u.flatMap fun c => if c = ' ' then ['%', '2', '0'] else [c]).filter
        fun c => c ≠ '\\')

/-- `_clean_url` as called on an arbitrary runtime value inside
`Agent.run`: falsy arguments return `""`, truthy strings are cleaned,
and a truthy non-string raises `AttributeError` at `url.strip()`. -/
def clean_url_val (v : JVal) : Except PyExn Str :=
  if ¬ v.truthy then .ok []
  else
    match v with
    | .s l => .ok (clean_url l)
    | _ => .error .attrError

/- ----------------------------------------------------------------
Spec-side descriptions of the accepted-URL mutations, written
independently of `clean_url` so the claim about it compares two
formulations.  (Percent-encoding of spaces; removal of backslashes.)
---------------------------------------------------------------- -/

/-- Spec-side description: replace each space by `%20`. -/
def encodeSpaces (l : Str) : Str :=
  l.flatMap fun c => if c = ' ' then ['%', '2', '0'] else [c]

/-- Spec-side description: drop every backslash. -/
def dropBackslashes (l : Str) : Str :=
  l.filter fun c => c ≠ '\\'

theorem clean_url_eq_of_not_http (url : Str) (h : ¬ startsWithHttp (stripUrl url) = true) :
    clean_url url = [] := by
  unfold clean_url
  by_cases he : url.isEmpty
  · simp [he]
  · simp [he, h]

theorem clean_url_eq_of_http (url : Str) (h : startsWithHttp (stripUrl url) = true) :
    clean_url url = dropBackslashes (encodeSpaces (stripUrl url)) := by
  have hne : ¬ url.isEmpty := by
    intro hempty
    have : url = [] := List.isEmpty_iff.mp hempty
    subst this
    simp [stripUrl, stripChars, startsWithHttp, List.isPrefixOf] at h
  unfold clean_url
  simp [hne, h, dropBackslashes, encodeSpaces]

/-- C7: for every input string whose stripped form (whitespace and
surrounding backticks/quotes removed) does not carry an http-family
scheme — formalised as the case-insensitive prefix `http`, which covers
exactly the http/https family accepted by the code — `_clean_url`
returns the empty string, never a mutated guess; and for accepted URLs
the only mutations are the stripping, percent-encoding of spaces and
removal of backslashes. -/
theorem clean_url_rejects_non_http (url : Str) :
    (¬ startsWithHttp (stripUrl url) = true → clean_url url = []) ∧
    (startsWithHttp (stripUrl url) = true →
      clean_url url = dropBackslashes (encodeSpaces (stripUrl url))) :=
  ⟨clean_url_eq_of_not_http url, clean_url_eq_of_http url⟩

/-- Witness for C7 at concrete inputs: `"ftp://x"` is rejected as empty,
and `"  https://a b\\c  "` is accepted with exactly the described
mutations. -/
theorem clean_url_rejects_non_http_witness :
    clean_url "ftp://x".toList = [] ∧
    clean_url "  https://a b\\c  ".toList =
      dropBackslashes (encodeSpaces (stripUrl "  https://a b\\c  ".toList)) :=
  ⟨(clean_url_rejects_non_http "ftp://x".toList).1 (by decide),
   (clean_url_rejects_non_http "  https://a b\\c  ".toList).2 (by decide)⟩

/- ----------------------------------------------------------------
Python str()/repr() on modelled values, needed for the f-strings in
`execute_action` and `Agent.run`.
---------------------------------------------------------------- -/

/-- Render a rational the way Python renders the numbers that occur in
this program (integers without a decimal point; non-integral rationals
keep Lean's rendering, a simplification that no embedded string ever
relies on). -/
def numToStr (q : ℚ) : Str :=
  if q.den = 1 then (toString q.num).toList else (toString q).toList

mutual

/-- Python `repr(x)` for the values of this program (container elements
are rendered with `repr`; strings get surrounding single quotes;
string-escape corner cases are not modelled because no embedded string
is ever parsed back). -/
def pyRepr : JVal → Str
  | .null => "None".toList
  | .b true => "True".toList
  | .b false => "False".toList
  | .num q => numToStr q
  | .s v => '\x27' :: (v ++ ['\x27'])
  | .arr xs => '[' :: (pyReprList xs ++ [']'])
  | .obj kvs => '\x7b' :: (pyReprKvs kvs ++ ['\x7d'])

/-- Comma-joined `repr` of list elements. -/
def pyReprList : List JVal → Str
  | [] => []
  | [x] => pyRepr x
  | x :: y :: rest => pyRepr x ++ ',' :: ' ' :: pyReprList (y :: rest)

/-- Comma-joined `repr` of dict entries. -/
def pyReprKvs : List (Str × JVal) → Str
  | [] => []
  | [(k, v)] => pyRepr (.s k) ++ ':' :: ' ' :: pyRepr v
  | (k, v) :: e :: rest =>
    pyRepr (.s k) ++ ':' :: ' ' :: pyRepr v ++ ',' :: ' ' :: pyReprKvs (e :: rest)

end

/-- Python `str(x)`: like `repr` but a top-level string is rendered
bare. -/
def pyStr (v : JVal) : Str :=
  match v with
  | .s u => u
  | _ => pyRepr v

/- ----------------------------------------------------------------
The external browser driver and language-model service, as abstract
state-passing operations (spec §1 treats them as collaborators).
A `.error msg` outcome models the underlying call raising an exception
whose text is `msg`; a `.ok` outcome models normal return.
---------------------------------------------------------------- -/

/-- Abstract environment: one field per primitive the embedded code
invokes on the Playwright page/context, the clock, the filesystem and
the Gemini service. `σ` is the external world state. -/
structure Env (σ : Type) where
  /-- `page.fill(selector, text)` -/
  page_fill : JVal → JVal → σ → σ × Except Str Unit
  /-- `page.query_selector(q)`: whether an element matched (`el` truthiness). -/
  query_selector : JVal → σ → σ × Except Str Bool
  /-- `el.click()` on the element found by query `q`. -/
  el_click : JVal → σ → σ × Except Str Unit
  /-- `el.fill(text)` on the first `input, textarea` element. -/
  el_fill : JVal → σ → σ × Except Str Unit
  /-- `page.keyboard.press(key)` -/
  key_press : JVal → σ → σ × Except Str Unit
  /-- `page.evaluate(js)` -/
  evaluate : Str → σ → σ × Except Str Unit
  /-- `time.sleep(seconds)` inside the `wait` action (raises on a
  non-numeric argument, hence fallible). -/
  wait_sleep : JVal → σ → σ × Except Str Unit
  /-- `time.sleep(0.5)` between retry attempts in `execute_ui_plan`. -/
  pause : σ → σ
  /-- `page.select_option(selector, value)` -/
  select_option : JVal → JVal → σ → σ × Except Str Unit
  /-- `page.hover(selector)` -/
  hover : JVal → σ → σ × Except Str Unit
  /-- `page.content()` -/
  content : σ → σ × Except Str Str
  /-- `page.screenshot(path=..., full_page=True)` -/
  screenshot : Str → σ → σ × Except Str Unit
  /-- `GeminiClient.plan_action(prompt)`: total, because that method
  catches transport and parsing failures internally and returns a
  structured value (gemini_client.py lines 27-87). -/
  plan_action : Str → σ → σ × JVal

/-- Sequencing for driver calls inside one Python `try` block: an
exception short-circuits to the shared handler. -/
def dbind {σ α β : Type} (m : σ × Except Str α)
    (f : α → σ → σ × Except Str β) : σ × Except Str β :=
  match m with
  | (st, .ok a) => f a st
  | (st, .error e) => (st, .error e)

/-- A concrete inert environment over the unit world, used by witnesses
and counterexamples: every driver call succeeds with neutral values and
the planner replies `None`. -/
def trivEnv : Env Unit where
  page_fill := fun _ _ st => (st, .ok ())
  query_selector := fun _ st => (st, .ok false)
  el_click := fun _ st => (st, .ok ())
  el_fill := fun _ st => (st, .ok ())
  key_press := fun _ st => (st, .ok ())
  evaluate := fun _ st => (st, .ok ())
  wait_sleep := fun _ st => (st, .ok ())
  pause := fun st => st
  select_option := fun _ _ st => (st, .ok ())
  hover := fun _ st => (st, .ok ())
  content := fun st => (st, .ok [])
  screenshot := fun _ st => (st, .ok ())
  plan_action := fun _ st => (st, .null)

/-- Key strings used by the embedded dictionaries. -/
def kError : Str := "error".toList
def kStatus : Str := "status".toList
def kSelector : Str := "selector".toList

/-- String-constant comparison `x == "w"` on a runtime value. -/
def JVal.isS (v : JVal) (w : String) : Bool :=
  match v with
  | .s u => u = w.toList
  | _ => false

/- ----------------------------------------------------------------
PlaywrightController.capture  (src/Code/playwright_controller.py
lines 40-55) and its per-run label set (line 16).
---------------------------------------------------------------- -/

/-- Observable driver touches made by one `capture` call. -/
inductive CapEv where
  | contentEv : CapEv
  | screenshotEv : CapEv
  deriving DecidableEq, Repr

/-- The controller state relevant to `capture`: the output directory,
the set of labels already captured (`self.captured_names`), and the
external world. -/
structure CapState (σ : Type) where
  outdir : Str
  captured : List Str
  drv : σ

/-- `os.path.join(outdir, f"{label}.png")` for the non-empty,
separator-free directory names this program uses. -/
def capturePath (outdir label : Str) : Str :=
  outdir ++ '/' :: (label ++ ".png".toList)

/-- `PlaywrightController.capture(label)` (lines 40-55): a label
already in `captured_names` returns `("", None)` immediately; otherwise
the label is recorded, the DOM is read (driver failure degrades to a
placeholder string) and a screenshot is attempted (driver failure
degrades the path to `None`). The third component lists the driver
touches performed. -/
def capture (env : Env σ) (st : CapState σ) (label : Str) :
    CapState σ × (Str × Option Str) × List CapEv :=
  if st.captured.contains label then (st, ([], none), [])
  else
    let c := env.content st.drv
    let dom := match c.2 with
      | .ok d => d
      | .error _ => "<no DOM captured>".toList
    let path := capturePath st.outdir label
    let sh := env.screenshot path c.1
    let pathOpt : Option Str := match sh.2 with
      | .ok _ => some path
      | .error _ => none
    (⟨st.outdir, label :: st.captured, sh.1⟩, (dom, pathOpt),
      [.contentEv, .screenshotEv])

/-- C9: `capture` is idempotent per label within a run. A label already
seen returns the empty placeholder with no driver touch and an
unchanged state; a fresh label touches the driver exactly once for the
DOM and once for the screenshot and records the label; consequently a
second call with the same label — whatever the first call did — returns
the empty placeholder untouched, so two equal-label calls touch the
driver at most once. -/
theorem capture_idempotent_per_label {σ : Type} (env : Env σ)
    (st : CapState σ) (label : Str) :
    (label ∈ st.captured →
      capture env st label = (st, ([], none), [])) ∧
    (label ∉ st.captured →
      (capture env st label).2.2 = [.contentEv, .screenshotEv] ∧
      label ∈ (capture env st label).1.captured) ∧
    capture env (capture env st label).1 label =
      ((capture env st label).1, ([], none), []) := by
  have h1 : ∀ st' : CapState σ, label ∈ st'.captured →
      capture env st' label = (st', ([], none), []) := by
    intro st' h
    simp [capture, h]
  have hmem : label ∈ (capture env st label).1.captured := by
    by_cases h : label ∈ st.captured
    · rw [h1 st h]
      exact h
    · unfold capture
      simp [h]
  refine ⟨h1 st, ?_, h1 _ hmem⟩
  intro h
  unfold capture
  simp [h]

/-- Witness for C9 at a concrete state: the label `"a"` is already
captured in one state and fresh in another. -/
theorem capture_idempotent_per_label_witness :
    capture trivEnv ⟨[], ["a".toList], ()⟩ "a".toList
        = (⟨[], ["a".toList], ()⟩, ([], none), []) ∧
    (capture trivEnv ⟨[], [], ()⟩ "a".toList).2.2
        = [.contentEv, .screenshotEv] :=
  ⟨(capture_idempotent_per_label trivEnv ⟨[], ["a".toList], ()⟩ "a".toList).1
      (by decide),
   ((capture_idempotent_per_label trivEnv ⟨[], [], ()⟩ "a".toList).2.1
      (by decide)).1⟩

/- ----------------------------------------------------------------
PlaywrightController.execute_action
(src/Code/playwright_controller.py lines 58-114)
---------------------------------------------------------------- -/

/-- The body of `execute_action`'s `try` block (lines 62-112): one
branch per action kind, each driver failure short-circuiting to the
shared handler via `dbind`. The `typ` argument is the already-computed
`action.get("type") or action.get("action")`. -/
def execute_action_try {σ : Type} (env : Env σ) (action typ : JVal) (st : σ) :
    σ × Except Str JVal :=
  if typ.isS "fill" ∨ typ.isS "type" ∨ typ.isS "set_value" then
    let selector := action.get "selector".toList
    let text := (action.getD "text".toList (.s [])).pyOr
      (action.getD "value".toList (.s []))
    if selector.truthy then
      dbind (env.page_fill selector text st) fun _ st1 =>
        (st1, .ok (.obj [(kStatus, .s "filled".toList), (kSelector, selector)]))
    else
      dbind (env.query_selector (.s "input, textarea".toList) st) fun found st1 =>
        if found then
          dbind (env.el_fill text st1) fun _ st2 =>
            (st2, .ok (.obj [(kStatus, .s "filled_first_input".toList)]))
        else (st1, .ok (.obj [(kStatus, .s "no_input_found".toList)]))
  else if typ.isS "click" then
    let selector := action.get "selector".toList
    let by_text := action.getD "by_text".toList (.b false)
    let text := action.get "text".toList
    if by_text.truthy ∧ text.truthy then
      let q1 : JVal := .s ("text=".toList ++ pyStr text)
      dbind (env.query_selector q1 st) fun found st1 =>
        if found then
          dbind (env.el_click q1 st1) fun _ st2 =>
            (st2, .ok (.obj [(kStatus, .s "clicked_by_text".toList)]))
        else
          let q2 : JVal :=
            .s ("*:has-text(\x22".toList ++ pyStr text ++ "\x22)".toList)
          dbind (env.query_selector q2 st1) fun found2 st2 =>
            if found2 then
              dbind (env.el_click q2 st2) fun _ st3 =>
                (st3, .ok (.obj [(kStatus, .s "clicked_by_text_fallback".toList)]))
            else (st2, .ok (.obj [(kStatus, .s "no_element_by_text".toList)]))
    else if selector.truthy then
      dbind (env.query_selector selector st) fun found st1 =>
        if found then
          dbind (env.el_click selector st1) fun _ st2 =>
            (st2, .ok (.obj [(kStatus, .s "clicked".toList), (kSelector, selector)]))
        else
          (st1, .ok (.obj [(kStatus, .s "no_element".toList), (kSelector, selector)]))
    else (st, .ok (.obj [(kError, .s "no_selector_for_click".toList)]))
  else if typ.isS "press" then
    let key := action.getD "key".toList (.s "Enter".toList)
    dbind (env.key_press key st) fun _ st1 =>
      (st1, .ok (.obj [(kStatus, .s "pressed".toList), ("key".toList, key)]))
  else if typ.isS "scroll" then
    let distance := action.getD "distance".toList (.num 500)
    dbind (env.evaluate
        ("window.scrollBy(0, ".toList ++ pyStr distance ++ ");".toList) st)
      fun _ st1 =>
        (st1, .ok (.obj [(kStatus, .s "scrolled".toList),
          ("distance".toList, distance)]))
  else if typ.isS "wait" then
    dbind (env.wait_sleep (action.getD "seconds".toList (.num 1)) st) fun _ st1 =>
      (st1, .ok (.obj [(kStatus, .s "waited".toList)]))
  else
    (st, .ok (.obj [(kError, .s "unknown_action_type".toList),
      ("provided".toList, action)]))

/-- `PlaywrightController.execute_action(action)` (lines 58-114): a
falsy action yields the `no_action_provided` error result before any
attribute access; the attribute lookup `action.get("type")` on a truthy
non-dict raises `AttributeError` (line 61 sits outside the `try`);
otherwise the body runs and any driver exception is caught and
converted to the `execute_action_failed` error result (lines 113-114). -/
def execute_action {σ : Type} (env : Env σ) (action : JVal) (st : σ) :
    Except PyExn (σ × JVal) :=
  if action.truthy = false then
    .ok (st, .obj [(kError, .s "no_action_provided".toList)])
  else
    match action with
    | .obj _ =>
      let typ := (action.get "type".toList).pyOr (action.get "action".toList)
      let r := execute_action_try env action typ st
      match r.2 with
      | .ok v => .ok (r.1, v)
      | .error e =>
        .ok (r.1, .obj [(kError, .s ("execute_action_failed:".toList ++ e))])
    | _ => .error .attrError

/-- A result dict in which exactly one of `status`/`error` carries a
truthy value (the spec's ActionResult shape). -/
def exactlyOneTag (v : JVal) : Bool :=
  match v with
  | .obj _ => ((v.get kStatus).truthy && !(v.get kError).truthy) ||
      (!(v.get kStatus).truthy && (v.get kError).truthy)
  | _ => false

theorem execute_action_try_good {σ : Type} (env : Env σ)
    (action typ : JVal) (st : σ) :
    ∀ v, (execute_action_try env action typ st).2 = .ok v →
      v.isObj = true ∧ exactlyOneTag v = true := by
  intro v hv
  unfold execute_action_try at hv
  simp only [dbind] at hv
  repeat' split at hv
  all_goals simp_all
  all_goals subst hv
  all_goals exact ⟨rfl, rfl⟩

/-- Every normal return of `execute_action` carries a dict with exactly
one of `status`/`error` set; shared by several claims below. -/
theorem execute_action_good {σ : Type} (env : Env σ) (action : JVal) (st : σ) :
    ∀ st' r, execute_action env action st = .ok (st', r) →
      r.isObj = true ∧ exactlyOneTag r = true := by
  intro st' r h
  unfold execute_action at h
  split at h
  · injection h with h'
    injection h' with h1 h2
    subst h2
    exact ⟨rfl, rfl⟩
  · cases action with
    | obj kvs =>
      simp only [] at h
      rcases hr : (execute_action_try env (JVal.obj kvs)
          (((JVal.obj kvs).get "type".toList).pyOr
            ((JVal.obj kvs).get "action".toList)) st).2 with e | v
      · rw [hr] at h
        simp only [] at h
        injection h with h'
        injection h' with h1 h2
        subst h2
        exact ⟨rfl, rfl⟩
      · rw [hr] at h
        simp only [] at h
        injection h with h'
        injection h' with h1 h2
        subst h2
        exact execute_action_try_good env _ _ st _ hr
    | null => simp at h
    | b bv => simp at h
    | num nv => simp at h
    | s sv => simp at h
    | arr xs => simp at h

/-- C5: for every action dict handed to
`PlaywrightController.execute_action`, the call returns normally with a
dict result — no driver exception escapes — and when the `try` body
ends in a driver exception with text `e`, the returned dict is exactly
`{"error": "execute_action_failed:" + e}`. -/
theorem execute_action_never_raises_on_dicts {σ : Type} (env : Env σ)
    (action : JVal) (st : σ) (h : action.isObj = true) :
    (∃ st' r, execute_action env action st = .ok (st', r) ∧ r.isObj = true) ∧
    (action.truthy = true → ∀ e,
      (execute_action_try env action
        ((action.get "type".toList).pyOr (action.get "action".toList)) st).2
        = .error e →
      execute_action env action st =
        .ok ((execute_action_try env action
            ((action.get "type".toList).pyOr (action.get "action".toList)) st).1,
          .obj [(kError, .s ("execute_action_failed:".toList ++ e))])) := by
  cases action with
  | null => simp [JVal.isObj] at h
  | b bv => simp [JVal.isObj] at h
  | num nv => simp [JVal.isObj] at h
  | s sv => simp [JVal.isObj] at h
  | arr xs => simp [JVal.isObj] at h
  | obj kvs =>
    constructor
    · by_cases ht : (JVal.obj kvs).truthy = true
      · unfold execute_action
        rw [if_neg (by simp [ht])]
        rcases hr : (execute_action_try env (JVal.obj kvs)
            (((JVal.obj kvs).get "type".toList).pyOr
              ((JVal.obj kvs).get "action".toList)) st).2 with e | v
        · refine ⟨(execute_action_try env (JVal.obj kvs)
              (((JVal.obj kvs).get "type".toList).pyOr
                ((JVal.obj kvs).get "action".toList)) st).1,
            JVal.obj [(kError, .s ("execute_action_failed:".toList ++ e))],
            ?_, rfl⟩
          simp only []
          rw [hr]
        · refine ⟨(execute_action_try env (JVal.obj kvs)
              (((JVal.obj kvs).get "type".toList).pyOr
                ((JVal.obj kvs).get "action".toList)) st).1,
            v, ?_, (execute_action_try_good env _ _ st v hr).1⟩
          simp only []
          rw [hr]
      · unfold execute_action
        rw [if_pos (by simpa using ht)]
        exact ⟨st, _, rfl, rfl⟩
    · intro ht e he
      unfold execute_action
      rw [if_neg (by simp [ht])]
      simp only []
      rw [he]

/-- The concrete action used by the C5 witness:
`{"type": "click", "selector": "#x"}`. -/
def clickXAct : JVal :=
  .obj [("type".toList, .s "click".toList), (kSelector, .s "#x".toList)]

/-- An environment whose `query_selector` always raises, exercising the
exception-conversion path. -/
def raisingEnv : Env Unit where
  page_fill := fun _ _ st => (st, .ok ())
  query_selector := fun _ _ => ((), .error "boom".toList)
  el_click := fun _ st => (st, .ok ())
  el_fill := fun _ st => (st, .ok ())
  key_press := fun _ st => (st, .ok ())
  evaluate := fun _ st => (st, .ok ())
  wait_sleep := fun _ st => (st, .ok ())
  pause := fun st => st
  select_option := fun _ _ st => (st, .ok ())
  hover := fun _ st => (st, .ok ())
  content := fun st => (st, .ok [])
  screenshot := fun _ st => (st, .ok ())
  plan_action := fun _ st => (st, .null)

/-- Witness for C5: a click action against a driver whose
`query_selector` raises still returns normally with a dict result, and
the exception text is wrapped as an `execute_action_failed` error. -/
theorem execute_action_never_raises_on_dicts_witness :
    (∃ st' r, execute_action raisingEnv clickXAct () = .ok (st', r) ∧
      r.isObj = true) ∧
    (clickXAct.truthy = true → ∀ e,
      (execute_action_try raisingEnv clickXAct
        ((clickXAct.get "type".toList).pyOr (clickXAct.get "action".toList)) ()).2
        = .error e →
      execute_action raisingEnv clickXAct () =
        .ok ((execute_action_try raisingEnv clickXAct
            ((clickXAct.get "type".toList).pyOr (clickXAct.get "action".toList)) ()).1,
          .obj [(kError, .s ("execute_action_failed:".toList ++ e))])) :=
  execute_action_never_raises_on_dicts raisingEnv clickXAct () (by decide)

/- ----------------------------------------------------------------
json.dumps and textwrap.dedent, needed by prompts.py.
---------------------------------------------------------------- -/

/-- Escaping of one character inside a JSON string as produced by
`json.dumps` (backslash, double quote and common control characters;
other characters pass through unescaped, matching
`ensure_ascii=False` for the texts this program produces). -/
def jescChar (c : Char) : Str :=
  if c = '\\' then ['\\', '\\']
  else if c = '\x22' then ['\\', '\x22']
  else if c = '\n' then ['\\', 'n']
  else if c = '\t' then ['\\', 't']
  else if c = '\r' then ['\\', 'r']
  else [c]

mutual

/-- `json.dumps(v, ensure_ascii=False)` with the default separators. -/
def jdump : JVal → Str
  | .null => "null".toList
  | .b true => "true".toList
  | .b false => "false".toList
  | .num q => numToStr q
  | .s v => '\x22' :: (v.flatMap jescChar ++ ['\x22'])
  | .arr xs => '[' :: (jdumpList xs ++ [']'])
  | .obj kvs => '\x7b' :: (jdumpKvs kvs ++ ['\x7d'])

/-- Comma-joined dumps of list elements. -/
def jdumpList : List JVal → Str
  | [] => []
  | [x] => jdump x
  | x :: y :: rest => jdump x ++ ',' :: ' ' :: jdumpList (y :: rest)

/-- Comma-joined dumps of dict entries. -/
def jdumpKvs : List (Str × JVal) → Str
  | [] => []
  | [(k, v)] => jdump (.s k) ++ ':' :: ' ' :: jdump v
  | (k, v) :: e :: rest =>
    jdump (.s k) ++ ':' :: ' ' :: jdump v ++ ',' :: ' ' :: jdumpKvs (e :: rest)

end

/-- Space or tab, the characters `textwrap.dedent` treats as margin. -/
def isIndentChar (c : Char) : Bool := c = ' ' ∨ c = '\t'

/-- Longest common prefix of two character lists. -/
def commonPrefix : Str → Str → Str
  | [], _ => []
  | _ :: _, [] => []
  | a :: as, b :: bs => if a = b then a :: commonPrefix as bs else []

/-- `textwrap.dedent`: lines consisting solely of spaces/tabs are
emptied, the longest common space/tab prefix of the remaining non-empty
lines is the margin, and the margin is removed from the start of every
line carrying it. -/
def dedent (l : Str) : Str :=
  let lines := (l.splitOn '\n').map fun ln =>
    if ¬ ln.isEmpty ∧ ln.all isIndentChar then [] else ln
  let indents := (lines.filter fun ln => ¬ ln.isEmpty).map fun ln =>
    ln.takeWhile isIndentChar
  let margin := match indents with
    | [] => []
    | i :: rest => rest.foldl commonPrefix i
  List.intercalate ['\n'] (lines.map fun ln =>
    if margin.isPrefixOf ln then ln.drop margin.length else ln)

/-- `build_feedback_prompt(task, last_plan, action_result, dom_snapshot)`
(src/Code/prompts.py lines 6-25): the dedented, stripped f-string
template with the four interpolations (the DOM trimmed to 16000
characters). -/
def build_feedback_prompt (task : Str) (last_plan action_result : JVal)
    (dom_snapshot : Str) : Str :=
  stripChars pyIsSpace (dedent (
    "\n    You are an expert UI automation planner. High-level task:\n    ".toList
    ++ task
    ++ "\n\n    Previous plan:\n    ".toList
    ++ jdump last_plan
    ++ "\n\n    Action result:\n    ".toList
    ++ jdump action_result
    ++ "\n\n    Current HTML snapshot (trimmed):\n    ".toList
    ++ dom_snapshot.take 16000
    ++ "\n\n    Did the last action make progress? If yes, plan the next single action in JSON format:\n      \x7b\x7b \x22action\x22: \x22<click|type|press|scroll|wait|select|hover>\x22, \x22selector\x22: \x22<css selector>\x22, \x22text|value\x22: \x22<text if needed>\x22, \x22desc\x22: \x22<short human description>\x22 \x7d\x7d\n    If the task is complete, respond with: \x7b\x7b \x22verdict\x22:\x22done\x22 \x7d\x7d.\n    Answer ONLY with the JSON object or array when asked to produce a plan.\n    ".toList))

/- ----------------------------------------------------------------
Agent.execute_ui_plan  (src/Code/agent.py lines 39-132)
---------------------------------------------------------------- -/

/-- Lines 46-49, the alias normalization, performed outside the `try`:
on a non-dict step the attribute access raises. Returns
`(typ, selector, value)`. -/
def stepAliases (step : JVal) : Except PyExn (JVal × JVal × JVal) :=
  match step with
  | .obj _ =>
    .ok ((step.get "action".toList).pyOr (step.get "type".toList),
      ((step.get "selector".toList).pyOr (step.get "sel".toList)).pyOr
        (step.get "query".toList),
      ((step.get "value".toList).pyOr (step.get "text".toList)).pyOr
        (step.get "fill".toList))
  | _ => .error .attrError

/-- Lines 99-103: run `controller.execute_action(action_dict)` under
the agent-level `except` clause. The `action_dict`s built by the loop
are truthy dict literals, so `execute_action` cannot raise here, but
the handler is modelled anyway. -/
def runAction {σ : Type} (env : Env σ) (ad : JVal) (st : σ) : σ × Option JVal :=
  match execute_action env ad st with
  | .ok (st1, r) => (st1, some r)
  | .error _ => (st, some (.obj [(kError, .s "exception:AttributeError".toList)]))

/-- One iteration of the per-step retry loop (the `try` body, lines
53-103, plus the `except` conversion). Returns the next world state,
the `result` variable after the iteration (`none` models Python `None`,
and a `click` step lacking both selector and `by_text` leaves `result`
unchanged because `action_dict` stays empty), and whether the iteration
ended in one of the `break` statements inside the `try` (lines 86, 94,
97) — an exception inside the select/hover branch skips that `break`. -/
def oneAttempt {σ : Type} (env : Env σ) (step typ selector value : JVal)
    (res : Option JVal) (st : σ) : σ × Option JVal × Bool :=
  if typ.isS "fill" ∨ typ.isS "type" ∨ typ.isS "set_value" then
    let p := runAction env (.obj [("type".toList, .s "fill".toList),
      (kSelector, selector), ("text".toList, value.pyOr (.s []))]) st
    (p.1, p.2, false)
  else if typ.isS "click" then
    if selector.truthy then
      let p := runAction env (.obj [("type".toList, .s "click".toList),
        (kSelector, selector)]) st
      (p.1, p.2, false)
    else if (step.get "by_text".toList).truthy then
      let p := runAction env (.obj [("type".toList, .s "click".toList),
        ("by_text".toList, .b true), ("text".toList, step.get "text".toList)]) st
      (p.1, p.2, false)
    else (st, res, false)
  else if typ.isS "press" then
    let p := runAction env (.obj [("type".toList, .s "press".toList),
      ("key".toList, step.getD "key".toList (.s "Enter".toList))]) st
    (p.1, p.2, false)
  else if typ.isS "wait" then
    let p := runAction env (.obj [("type".toList, .s "wait".toList),
      ("seconds".toList, step.getD "seconds".toList (.num 1))]) st
    (p.1, p.2, false)
  else if typ.isS "scroll" then
    let p := runAction env (.obj [("type".toList, .s "scroll".toList),
      ("direction".toList, step.getD "direction".toList (.s "down".toList)),
      ("distance".toList, step.getD "distance".toList (.num 500))]) st
    (p.1, p.2, false)
  else if typ.isS "select" ∨ typ.isS "select_option" then
    if selector.truthy ∧ step.hasKey "value".toList then
      let c := env.select_option selector (step.getD "value".toList .null) st
      match c.2 with
      | .ok _ => (c.1, some (.obj [(kStatus, .s "selected".toList),
          (kSelector, selector), ("value".toList, step.getD "value".toList .null)]),
          true)
      | .error e => (c.1, some (.obj [(kError, .s ("exception:".toList ++ e))]),
          false)
    else (st, some (.obj [(kError, .s "select_missing_selector_or_value".toList)]),
      true)
  else if typ.isS "hover" then
    if selector.truthy then
      let c := env.hover selector st
      match c.2 with
      | .ok _ => (c.1, some (.obj [(kStatus, .s "hovered".toList),
          (kSelector, selector)]), true)
      | .error e => (c.1, some (.obj [(kError, .s ("exception:".toList ++ e))]),
          false)
    else (st, some (.obj [(kError, .s "hover_no_selector".toList)]), true)
  else
    (st, some (.obj [(kError, .s "unknown_action".toList),
      ("provided".toList, step)]), true)

/-- Line 105: `isinstance(result, dict) and (result.get("status") or
not result.get("error"))`. -/
def attemptBreak (res : Option JVal) : Bool :=
  match res with
  | some (.obj kvs) => ((JVal.obj kvs).get kStatus).truthy ||
      !((JVal.obj kvs).get kError).truthy
  | _ => false

/-- The retry loop `for attempt in range(max_retries + 1)` (lines
52-107) with the given number of remaining iterations: an inner `break`
or a satisfied line-105 condition ends the loop, otherwise the agent
pauses (`time.sleep(0.5)`) and retries. Returns the final state, the
final `result` and the number of attempts performed. -/
def attemptLoop {σ : Type} (env : Env σ) (step typ selector value : JVal) :
    Nat → Option JVal → σ → σ × Option JVal × Nat
  | 0, res, st => (st, res, 0)
  | n + 1, res, st =>
    let a := oneAttempt env step typ selector value res st
    if a.2.2 then (a.1, a.2.1, 1)
    else if attemptBreak a.2.1 then (a.1, a.2.1, 1)
    else
      let st2 := env.pause a.1
      let r2 := attemptLoop env step typ selector value n a.2.1 st2
      (r2.1, r2.2.1, r2.2.2 + 1)

/-- Python `None`-to-value coercion for storing `result` in a record. -/
def optVal : Option JVal → JVal
  | none => .null
  | some v => v

/-- Line 112: `isinstance(result, dict) and result.get("error")`. -/
def errDict : Option JVal → Bool
  | some (.obj kvs) => ((JVal.obj kvs).get kError).truthy
  | _ => false

/-- Observable outcome of processing one plan step: final world state,
the appended `{"step_index", "step", "result"}` record, the optional
recovery record, the number of attempts made, and whether a recovery
prompt was issued. -/
structure StepOut (σ : Type) where
  st : σ
  record : JVal
  extra : List JVal
  attempts : Nat
  recovered : Bool

/-- Lines 45-130 for a single step: alias normalization (may raise on a
non-dict step), the retry loop, the record append, and the recovery
path — DOM capture, feedback prompt, one planner call, and at most one
corrective `execute_action` (which itself raises on a truthy non-dict
corrective action, line 128 being outside any `try`). -/
def processStep {σ : Type} (env : Env σ) (maxRetries : Nat) (idx : Nat)
    (step : JVal) (st : σ) : Except PyExn (StepOut σ) :=
  match stepAliases step with
  | .error e => .error e
  | .ok al =>
    let L := attemptLoop env step al.1 al.2.1 al.2.2 (maxRetries + 1) none st
    let record := JVal.obj [("step_index".toList, .num idx),
      ("step".toList, step), ("result".toList, optVal L.2.1)]
    if errDict L.2.1 then
      let c := env.content L.1
      let dom := match c.2 with
        | .ok d => d
        | .error _ => []
      let pr := env.plan_action
        (build_feedback_prompt [] step (optVal L.2.1) dom) c.1
      let repl_action := match pr.2 with
        | .obj kvs => (JVal.obj kvs).get "action".toList
        | _ => .null
      if repl_action.truthy then
        match execute_action env repl_action pr.1 with
        | .ok p =>
          .ok ⟨p.1, record, [.obj [("repl_step".toList, repl_action),
            ("repl_result".toList, p.2)]], L.2.2, true⟩
        | .error e => .error e
      else
        .ok ⟨pr.1, record, [], L.2.2, true⟩
    else
      .ok ⟨L.1, record, [], L.2.2, false⟩

/-- The `for idx, step in enumerate(ui_plan)` loop of
`execute_ui_plan`. -/
def execute_ui_plan_go {σ : Type} (env : Env σ) (maxRetries : Nat) :
    List JVal → Nat → σ → Except PyExn (σ × List JVal × List Nat × List Bool)
  | [], _, st => .ok (st, [], [], [])
  | stp :: rest, idx, st =>
    match processStep env maxRetries idx stp st with
    | .error e => .error e
    | .ok o =>
      match execute_ui_plan_go env maxRetries rest (idx + 1) o.st with
      | .error e => .error e
      | .ok r => .ok (r.1, (o.record :: o.extra) ++ r.2.1,
          o.attempts :: r.2.2.1, o.recovered :: r.2.2.2)

/-- `Agent.execute_ui_plan(ui_plan, max_retries)` (lines 39-132): a
non-list plan short-circuits with the `ui_plan_not_list` error dict;
otherwise the steps run in order, each contributing its record(s) to
the returned list. The two extra components are observables: the
per-step attempt counts and the per-step recovery flags. -/
def execute_ui_plan {σ : Type} (env : Env σ) (ui_plan : JVal)
    (maxRetries : Nat) (st : σ) :
    Except PyExn (σ × JVal × List Nat × List Bool) :=
  match ui_plan with
  | .arr steps =>
    match execute_ui_plan_go env maxRetries steps 0 st with
    | .error e => .error e
    | .ok out => .ok (out.1, .arr out.2.1, out.2.2.1, out.2.2.2)
  | _ => .ok (st, .obj [(kError, .s "ui_plan_not_list".toList),
      ("raw".toList, ui_plan)], [], [])

/-- C8: for every input value that is not a list, `execute_ui_plan`
short-circuits immediately, returning the structured error
`{"error": "ui_plan_not_list", "raw": <input>}` with the world state
untouched, no step record and no attempt made. -/
theorem execute_ui_plan_not_list {σ : Type} (env : Env σ) (st : σ)
    (v : JVal) (maxRetries : Nat) (h : v.isArr = false) :
    execute_ui_plan env v maxRetries st =
      .ok (st, .obj [(kError, .s "ui_plan_not_list".toList),
        ("raw".toList, v)], [], []) := by
  cases v with
  | arr xs => simp [JVal.isArr] at h
  | null => rfl
  | b bv => rfl
  | num nv => rfl
  | s sv => rfl
  | obj kvs => rfl

/-- Witness for C8: the dict plan `{}` is rejected unchanged. -/
theorem execute_ui_plan_not_list_witness :
    execute_ui_plan trivEnv (.obj []) 2 () =
      .ok ((), .obj [(kError, .s "ui_plan_not_list".toList),
        ("raw".toList, .obj [])], [], []) :=
  execute_ui_plan_not_list trivEnv () (.obj []) 2 (by decide)

/-- The retry loop never performs more attempts than it has iterations. -/
theorem attemptLoop_attempts_le {σ : Type} (env : Env σ)
    (step typ sel val : JVal) :
    ∀ (n : Nat) (res : Option JVal) (st : σ),
      (attemptLoop env step typ sel val n res st).2.2 ≤ n := by
  intro n
  induction n with
  | zero => intro res st; simp [attemptLoop]
  | succ n ih =>
    intro res st
    unfold attemptLoop
    simp only []
    split
    · simp
    · split
      · simp
      · exact Nat.succ_le_succ (ih _ _)

/-- With at least one iteration available, the loop performs at least
one attempt. -/
theorem attemptLoop_attempts_pos {σ : Type} (env : Env σ)
    (step typ sel val : JVal) (n : Nat) (res : Option JVal) (st : σ) :
    1 ≤ (attemptLoop env step typ sel val (n + 1) res st).2.2 := by
  unfold attemptLoop
  simp only []
  split
  · simp
  · split
    · simp
    · exact Nat.succ_le_succ (Nat.zero_le _)

/-- The single-step scenario-D plan step
`{"action": "click", "selector": "#submit"}`. -/
def scenDStep : JVal :=
  .obj [("action".toList, .s "click".toList), (kSelector, .s "#submit".toList)]

/-- Environment for scenario D over the state `(clicks, plannerCalls)`:
the element is always found, the first two click attempts raise, the
third succeeds, and every planner call is counted. -/
def clickRetryEnv : Env (Nat × Nat) where
  page_fill := fun _ _ st => (st, .ok ())
  query_selector := fun _ st => (st, .ok true)
  el_click := fun _ st =>
    if st.1 < 2 then ((st.1 + 1, st.2), .error "boom".toList)
    else ((st.1 + 1, st.2), .ok ())
  el_fill := fun _ st => (st, .ok ())
  key_press := fun _ st => (st, .ok ())
  evaluate := fun _ st => (st, .ok ())
  wait_sleep := fun _ st => (st, .ok ())
  pause := fun st => st
  select_option := fun _ _ st => (st, .ok ())
  hover := fun _ st => (st, .ok ())
  content := fun st => (st, .ok [])
  screenshot := fun _ st => (st, .ok ())
  plan_action := fun _ st => ((st.1, st.2 + 1), .null)

/-- C1: (i) with the default `max_retries = 2` every step makes at most
3 attempts; (ii) when an iteration does not end in an inner `break`,
the loop stops after it exactly when its result is a dict carrying a
truthy `status` or no truthy `error` (line 105); (iii) scenario D: for
the plan `[{"action": "click", "selector": "#submit"}]` against a
driver whose first two clicks raise and whose third succeeds, exactly 3
attempts are made, exactly one record is appended (with the success
status), no recovery prompt is issued and the planner is never
called. -/
theorem plan_executor_retry_bound :
    (∀ (σ : Type) (env : Env σ) (idx : Nat) (stp : JVal) (st : σ)
      (out : StepOut σ), processStep env 2 idx stp st = .ok out →
        out.attempts ≤ 3) ∧
    (∀ (σ : Type) (env : Env σ) (stp typ sel val : JVal) (n : Nat)
      (res : Option JVal) (st : σ),
      (oneAttempt env stp typ sel val res st).2.2 = false →
      ((attemptLoop env stp typ sel val (n + 2) res st).2.2 = 1 ↔
        attemptBreak (oneAttempt env stp typ sel val res st).2.1 = true)) ∧
    execute_ui_plan clickRetryEnv (.arr [scenDStep]) 2 (0, 0) =
      .ok ((3, 0), .arr [.obj [("step_index".toList, .num 0),
        ("step".toList, scenDStep),
        ("result".toList, .obj [(kStatus, .s "clicked".toList),
          (kSelector, .s "#submit".toList)])]], [3], [false]) := by
  refine ⟨?_, ?_, ?_⟩
  · intro σ env idx stp st out h
    unfold processStep at h
    split at h
    · cases h
    · rename_i x al hal
      simp only [] at h
      have hle := attemptLoop_attempts_le env stp al.1 al.2.1 al.2.2 3 none st
      split at h
      · split at h
        · split at h
          · injection h with h'
            subst h'
            exact hle
          · cases h
        · injection h with h'
          subst h'
          exact hle
      · injection h with h'
        subst h'
        exact hle
  · intro σ env stp typ sel val n res st hnb
    have hexp : (attemptLoop env stp typ sel val (n + 2) res st).2.2 =
        (if attemptBreak (oneAttempt env stp typ sel val res st).2.1 = true
          then ((oneAttempt env stp typ sel val res st).1,
            (oneAttempt env stp typ sel val res st).2.1, 1)
          else ((attemptLoop env stp typ sel val (n + 1)
              (oneAttempt env stp typ sel val res st).2.1
              (env.pause (oneAttempt env stp typ sel val res st).1)).1,
            (attemptLoop env stp typ sel val (n + 1)
              (oneAttempt env stp typ sel val res st).2.1
              (env.pause (oneAttempt env stp typ sel val res st).1)).2.1,
            (attemptLoop env stp typ sel val (n + 1)
              (oneAttempt env stp typ sel val res st).2.1
              (env.pause (oneAttempt env stp typ sel val res st).1)).2.2 + 1)).2.2 := by
      conv_lhs => unfold attemptLoop
      simp only [hnb, Bool.false_eq_true, if_false]
    rw [hexp]
    constructor
    · intro h1
      by_cases hb : attemptBreak (oneAttempt env stp typ sel val res st).2.1 = true
      · exact hb
      · rw [if_neg (by simp [hb])] at h1
        simp only [] at h1
        have := attemptLoop_attempts_pos env stp typ sel val n
          (oneAttempt env stp typ sel val res st).2.1
          (env.pause (oneAttempt env stp typ sel val res st).1)
        omega
    · intro hb
      rw [if_pos hb]
  · rfl

/-- Witness for C1: the scenario-D step's attempt count obeys the
bound, and the stop-after-one-attempt iff holds at a concrete
environment. -/
theorem plan_executor_retry_bound_witness :
    ((⟨(3, 0), JVal.obj [("step_index".toList, .num 0),
        ("step".toList, scenDStep),
        ("result".toList, .obj [(kStatus, .s "clicked".toList),
          (kSelector, .s "#submit".toList)])],
      [], 3, false⟩ : StepOut (Nat × Nat)).attempts ≤ 3) ∧
    ((attemptLoop trivEnv scenDStep (.s "click".toList)
        (.s "#submit".toList) .null 2 none ()).2.2 = 1 ↔
      attemptBreak (oneAttempt trivEnv scenDStep (.s "click".toList)
        (.s "#submit".toList) .null none ()).2.1 = true) :=
  ⟨plan_executor_retry_bound.1 (Nat × Nat) clickRetryEnv 0 scenDStep (0, 0)
      _ rfl,
   plan_executor_retry_bound.2.1 Unit trivEnv scenDStep (.s "click".toList)
      (.s "#submit".toList) .null 0 none () rfl⟩

/-- The scenario-C plan step `{"action": "click", "selector": "#missing"}`. -/
def scenCStep : JVal :=
  .obj [("action".toList, .s "click".toList), (kSelector, .s "#missing".toList)]

/-- `errDict` only looks at the stored record value. -/
theorem errDict_optVal (r : Option JVal) :
    errDict (some (optVal r)) = errDict r := by
  cases r with
  | none => rfl
  | some v => cases v <;> rfl

/-- Field access on the step record produced by `processStep`. -/
theorem record_get_result (idx : ℚ) (stp r : JVal) :
    (JVal.obj [("step_index".toList, .num idx), ("step".toList, stp),
      ("result".toList, r)]).get "result".toList = r := rfl

/-- C2 (amended): (i) a recovery prompt is issued for a step exactly
when the step's final recorded result is a dict with a truthy `error`
key; (ii) scenario C: a click whose selector matches nothing yields the
non-error `no_element` status, one single record, one attempt and no
recovery; (iii) when recovery is triggered and the planner's reply is a
dict whose truthy `action` value is itself a dict, that corrective
action is executed exactly once and exactly one additional
`{"repl_step", "repl_result"}` record is appended. (The original claim
omitted the requirement that the `action` value be a dict; see the
counterexample.) -/
theorem recovery_trigger_iff_error :
    (∀ (σ : Type) (env : Env σ) (mR idx : Nat) (stp : JVal) (st : σ)
      (out : StepOut σ), processStep env mR idx stp st = .ok out →
      (out.recovered = true ↔
        errDict (some ((out.record).get "result".toList)) = true)) ∧
    execute_ui_plan trivEnv (.arr [scenCStep]) 2 () =
      .ok ((), .arr [.obj [("step_index".toList, .num 0),
        ("step".toList, scenCStep),
        ("result".toList, .obj [(kStatus, .s "no_element".toList),
          (kSelector, .s "#missing".toList)])]], [1], [false]) ∧
    (∀ (σ : Type) (env : Env σ) (mR idx : Nat) (stp : JVal)
      (al : JVal × JVal × JVal) (st stL : σ) (resL : Option JVal) (att : Nat)
      (stc : σ) (domr : Except Str Str) (stp2 : σ) (repl a : JVal),
      stepAliases stp = .ok al →
      attemptLoop env stp al.1 al.2.1 al.2.2 (mR + 1) none st =
        (stL, resL, att) →
      errDict resL = true →
      env.content stL = (stc, domr) →
      env.plan_action (build_feedback_prompt [] stp (optVal resL)
        (match domr with | .ok d => d | .error _ => [])) stc = (stp2, repl) →
      (match repl with
        | JVal.obj kvs => (JVal.obj kvs).get "action".toList
        | _ => JVal.null) = a →
      a.truthy = true → a.isObj = true →
      ∃ p, execute_action env a stp2 = .ok p ∧
        processStep env mR idx stp st = .ok ⟨p.1,
          .obj [("step_index".toList, .num idx), ("step".toList, stp),
            ("result".toList, optVal resL)],
          [.obj [("repl_step".toList, a), ("repl_result".toList, p.2)]],
          att, true⟩) := by
  refine ⟨?_, by rfl, ?_⟩
  · intro σ env mR idx stp st out h
    unfold processStep at h
    split at h
    · cases h
    · rename_i x al hal
      simp only [] at h
      split at h
      · rename_i herr
        split at h
        · split at h
          · injection h with h'
            subst h'
            simp only [record_get_result, errDict_optVal]
            simp [herr]
          · cases h
        · injection h with h'
          subst h'
          simp only [record_get_result, errDict_optVal]
          simp [herr]
      · rename_i herr
        injection h with h'
        subst h'
        simp only [record_get_result, errDict_optVal]
        simp only [Bool.not_eq_true] at herr
        simp [herr]
  · intro σ env mR idx stp al st stL resL att stc domr stp2 repl a
      hal hL herr hc hpr hra htr hobj
    obtain ⟨⟨st', r, hexec, hro⟩, hconv⟩ :=
      execute_action_never_raises_on_dicts env a stp2 hobj
    refine ⟨(st', r), hexec, ?_⟩
    unfold processStep
    rw [hal]
    simp only []
    rw [hL]
    simp only []
    rw [herr]
    simp only [if_true]
    rw [hc]
    simp only []
    rw [hpr]
    simp only []
    rw [hra, if_pos htr, hexec]

/-- The plan step `{"action": "click", "selector": "#x"}`. -/
def clickHashX : JVal :=
  .obj [("action".toList, .s "click".toList), (kSelector, .s "#x".toList)]

/-- Environment whose clicks fail (query raises) and whose planner
replies with a corrective action that is itself a dict. -/
def recEnv : Env Unit where
  page_fill := fun _ _ st => (st, .ok ())
  query_selector := fun _ _ => ((), .error "qfail".toList)
  el_click := fun _ st => (st, .ok ())
  el_fill := fun _ st => (st, .ok ())
  key_press := fun _ st => (st, .ok ())
  evaluate := fun _ st => (st, .ok ())
  wait_sleep := fun _ st => (st, .ok ())
  pause := fun st => st
  select_option := fun _ _ st => (st, .ok ())
  hover := fun _ st => (st, .ok ())
  content := fun st => (st, .ok [])
  screenshot := fun _ st => (st, .ok ())
  plan_action := fun _ st =>
    (st, .obj [("action".toList, .obj [("type".toList, .s "wait".toList)])])

/-- Witness for C2: scenario C's step records a non-error status and
triggers no recovery, and at `recEnv` the corrective dict action is
executed once with its record appended. -/
theorem recovery_trigger_iff_error_witness :
    ((⟨(), .obj [("step_index".toList, .num 0), ("step".toList, scenCStep),
        ("result".toList, .obj [(kStatus, .s "no_element".toList),
          (kSelector, .s "#missing".toList)])], [], 1, false⟩ :
        StepOut Unit).recovered = true ↔
      errDict (some (((⟨(), .obj [("step_index".toList, .num 0),
        ("step".toList, scenCStep),
        ("result".toList, .obj [(kStatus, .s "no_element".toList),
          (kSelector, .s "#missing".toList)])], [], 1, false⟩ :
        StepOut Unit).record).get "result".toList)) = true) ∧
    (∃ p, execute_action recEnv (.obj [("type".toList, .s "wait".toList)]) () =
        .ok p ∧
      processStep recEnv 2 0 clickHashX () = .ok ⟨p.1,
        .obj [("step_index".toList, .num 0), ("step".toList, clickHashX),
          ("result".toList, optVal (some (.obj [(kError,
            .s "execute_action_failed:qfail".toList)])))],
        [.obj [("repl_step".toList, .obj [("type".toList, .s "wait".toList)]),
          ("repl_result".toList, p.2)]], 3, true⟩) :=
  ⟨recovery_trigger_iff_error.1 Unit trivEnv 2 0 scenCStep () _ rfl,
   recovery_trigger_iff_error.2.2 Unit recEnv 2 0 clickHashX
     (.s "click".toList, .s "#x".toList, .null) () ()
     (some (.obj [(kError, .s "execute_action_failed:qfail".toList)])) 3
     () (.ok []) ()
     (.obj [("action".toList, .obj [("type".toList, .s "wait".toList)])])
     (.obj [("type".toList, .s "wait".toList)])
     rfl rfl rfl rfl rfl rfl (by decide) (by decide)⟩

/-- Environment whose clicks fail and whose planner replies with a
corrective `action` that is a bare string — truthy but not a dict. -/
def crashRecoveryEnv : Env Unit where
  page_fill := fun _ _ st => (st, .ok ())
  query_selector := fun _ _ => ((), .error "qfail".toList)
  el_click := fun _ st => (st, .ok ())
  el_fill := fun _ st => (st, .ok ())
  key_press := fun _ st => (st, .ok ())
  evaluate := fun _ st => (st, .ok ())
  wait_sleep := fun _ st => (st, .ok ())
  pause := fun st => st
  select_option := fun _ _ st => (st, .ok ())
  hover := fun _ st => (st, .ok ())
  content := fun st => (st, .ok [])
  screenshot := fun _ st => (st, .ok ())
  plan_action := fun _ st => (st, .obj [("action".toList, .s "click".toList)])

/-- Counterexample to C2 as stated: with a planner reply
`{"action": "click"}` — a dict with a truthy `action` value — the
corrective execution raises `AttributeError` on the string action
(line 61 of the controller is outside every `try`), so the whole plan
execution aborts and no additional record is appended. -/
theorem recovery_nondict_action_crashes :
    execute_ui_plan crashRecoveryEnv (.arr [clickHashX]) 2 () =
      .error .attrError := rfl

/- ----------------------------------------------------------------
C6: terminal-result shape.
---------------------------------------------------------------- -/

/-- The loop-carried `result` is `None` or a dict with exactly one of
`status`/`error` set. -/
def GoodOpt (r : Option JVal) : Prop :=
  r = none ∨ ∃ v, r = some v ∧ v.isObj = true ∧ exactlyOneTag v = true

theorem runAction_good {σ : Type} (env : Env σ) (ad : JVal) (st : σ) :
    GoodOpt (runAction env ad st).2 := by
  unfold runAction
  rcases hx : execute_action env ad st with e | ⟨st1, r⟩
  · exact Or.inr ⟨_, rfl, rfl, rfl⟩
  · exact Or.inr ⟨r, rfl, (execute_action_good env ad st st1 r hx).1,
      (execute_action_good env ad st st1 r hx).2⟩

theorem oneAttempt_good {σ : Type} (env : Env σ) (stp typ sel val : JVal)
    (res : Option JVal) (st : σ) (h : GoodOpt res) :
    GoodOpt (oneAttempt env stp typ sel val res st).2.1 := by
  unfold oneAttempt
  simp only []
  repeat' split
  all_goals first
    | exact h
    | exact runAction_good env _ _
    | exact Or.inr ⟨_, rfl, rfl, rfl⟩

theorem attemptLoop_good {σ : Type} (env : Env σ) (stp typ sel val : JVal) :
    ∀ (n : Nat) (res : Option JVal) (st : σ), GoodOpt res →
      GoodOpt (attemptLoop env stp typ sel val n res st).2.1 := by
  intro n
  induction n with
  | zero => intro res st h; exact h
  | succ n ih =>
    intro res st h
    unfold attemptLoop
    simp only []
    split
    · exact oneAttempt_good env stp typ sel val res st h
    · split
      · exact oneAttempt_good env stp typ sel val res st h
      · exact ih _ _ (oneAttempt_good env stp typ sel val res st h)

/-- C6 (amended): every dict-shaped step processed by the Plan Executor
yields exactly one terminal record whose stored result is either a dict
with exactly one of `status`/`error` set, or Python `None` — the `None`
case arising for click steps lacking both a selector and `by_text`
(the original claim asserted the result is always such a dict; see the
counterexample). -/
theorem step_result_exactly_one_tag :
    ∀ (σ : Type) (env : Env σ) (mR idx : Nat) (stp : JVal) (st : σ)
      (out : StepOut σ), processStep env mR idx stp st = .ok out →
      (out.record).get "result".toList = .null ∨
      (((out.record).get "result".toList).isObj = true ∧
        exactlyOneTag ((out.record).get "result".toList) = true) := by
  intro σ env mR idx stp st out h
  unfold processStep at h
  split at h
  · cases h
  · rename_i x al hal
    simp only [] at h
    have hg := attemptLoop_good env stp al.1 al.2.1 al.2.2 (mR + 1) none st
      (Or.inl rfl)
    have key : ∀ r : Option JVal, GoodOpt r →
        optVal r = .null ∨ ((optVal r).isObj = true ∧
          exactlyOneTag (optVal r) = true) := by
      intro r hr
      rcases hr with hnone | ⟨v, hv, h1, h2⟩
      · subst hnone; exact Or.inl rfl
      · subst hv; exact Or.inr ⟨h1, h2⟩
    split at h
    · split at h
      · split at h
        · injection h with h'
          subst h'
          simp only [record_get_result]
          exact key _ hg
        · cases h
      · injection h with h'
        subst h'
        simp only [record_get_result]
        exact key _ hg
    · injection h with h'
      subst h'
      simp only [record_get_result]
      exact key _ hg

/-- Witness for C6 at a concrete input: a click step lacking selector
and `by_text` produces the `None` result. -/
theorem step_result_exactly_one_tag_witness :
    ((⟨(), .obj [("step_index".toList, .num 0),
        ("step".toList, .obj [("action".toList, .s "click".toList)]),
        ("result".toList, .null)], [], 3, false⟩ :
        StepOut Unit).record).get "result".toList = .null ∨
    ((((⟨(), .obj [("step_index".toList, .num 0),
        ("step".toList, .obj [("action".toList, .s "click".toList)]),
        ("result".toList, .null)], [], 3, false⟩ :
        StepOut Unit).record).get "result".toList).isObj = true ∧
      exactlyOneTag (((⟨(), .obj [("step_index".toList, .num 0),
        ("step".toList, .obj [("action".toList, .s "click".toList)]),
        ("result".toList, .null)], [], 3, false⟩ :
        StepOut Unit).record).get "result".toList) = true) :=
  step_result_exactly_one_tag Unit trivEnv 2 0
    (.obj [("action".toList, .s "click".toList)]) () _ rfl

/-- Counterexample to C6 as stated: the click step `{"action": "click"}`
(no selector, no `by_text`) leaves `result` as Python `None` through
all three attempts, and the appended record stores `None` — not a dict
in which one of `status`/`error` is set. -/
theorem click_without_target_records_none :
    execute_ui_plan trivEnv (.arr [.obj [("action".toList, .s "click".toList)]])
      2 () =
    .ok ((), .arr [.obj [("step_index".toList, .num 0),
      ("step".toList, .obj [("action".toList, .s "click".toList)]),
      ("result".toList, .null)]], [3], [false]) := rfl

/- ----------------------------------------------------------------
C10: attempt counts per action kind.
---------------------------------------------------------------- -/

/-- The action kinds recognized by the retry loop's branch chain. -/
def knownKind (typ : JVal) : Bool :=
  typ.isS "fill" || typ.isS "type" || typ.isS "set_value" || typ.isS "click" ||
  typ.isS "press" || typ.isS "wait" || typ.isS "scroll" || typ.isS "select" ||
  typ.isS "select_option" || typ.isS "hover"

/-- A `break` inside the `try` ends the loop after one attempt. -/
theorem attemptLoop_one_of_brk {σ : Type} (env : Env σ)
    (stp typ sel val : JVal) (n : Nat) (res : Option JVal) (st : σ)
    (h : (oneAttempt env stp typ sel val res st).2.2 = true) :
    (attemptLoop env stp typ sel val (n + 1) res st).2.2 = 1 := by
  unfold attemptLoop
  simp only []
  rw [if_pos h]

/-- An unrecognized kind hits the final `else` branch, which sets the
`unknown_action` error and breaks immediately. -/
theorem oneAttempt_unknown {σ : Type} (env : Env σ) (stp typ sel val : JVal)
    (res : Option JVal) (st : σ) (h : knownKind typ = false) :
    oneAttempt env stp typ sel val res st =
      (st, some (.obj [(kError, .s "unknown_action".toList),
        ("provided".toList, stp)]), true) := by
  simp only [knownKind, Bool.or_eq_false_iff] at h
  obtain ⟨⟨⟨⟨⟨⟨⟨⟨⟨h1, h2⟩, h3⟩, h4⟩, h5⟩, h6⟩, h7⟩, h8⟩, h9⟩, h10⟩ := h
  simp [oneAttempt, h1, h2, h3, h4, h5, h6, h7, h8, h9, h10]

/-- `x == "w"` forces the shape of `x`. -/
theorem isS_elim (typ : JVal) (w : String) (h : typ.isS w = true) :
    typ = .s w.toList := by
  cases typ <;> simp [JVal.isS] at h ⊢
  exact h

/-- C10 (amended): steps of unrecognized kind, and `select`/
`select_option`/`hover` steps whose immediate-result branch runs —
missing selector/value, or a driver call that returns without raising —
make exactly one attempt, the loop being left through the inner
`break`; a driver exception in the select/hover branch, however, skips
that `break`, and the step is retried like the other kinds (see the
counterexample). -/
theorem immediate_break_kinds_single_attempt :
    (∀ (σ : Type) (env : Env σ) (stp typ sel val : JVal) (n : Nat)
      (res : Option JVal) (st : σ), knownKind typ = false →
      (attemptLoop env stp typ sel val (n + 1) res st).2.2 = 1) ∧
    (∀ (σ : Type) (env : Env σ) (stp sel val : JVal) (n : Nat)
      (res : Option JVal) (st : σ) (typ : JVal),
      (typ = .s "select".toList ∨ typ = .s "select_option".toList) →
      (¬ (sel.truthy = true ∧ stp.hasKey "value".toList = true) ∨
        (env.select_option sel (stp.getD "value".toList .null) st).2 = .ok ()) →
      (attemptLoop env stp typ sel val (n + 1) res st).2.2 = 1) ∧
    (∀ (σ : Type) (env : Env σ) (stp sel val : JVal) (n : Nat)
      (res : Option JVal) (st : σ),
      (¬ sel.truthy = true ∨ (env.hover sel st).2 = .ok ()) →
      (attemptLoop env stp (.s "hover".toList) sel val (n + 1) res st).2.2
        = 1) := by
  refine ⟨?_, ?_, ?_⟩
  · intro σ env stp typ sel val n res st h
    apply attemptLoop_one_of_brk
    rw [oneAttempt_unknown env stp typ sel val res st h]
  · intro σ env stp sel val n res st typ htyp hcase
    apply attemptLoop_one_of_brk
    have hsel : (oneAttempt env stp typ sel val res st) =
        (if h : sel.truthy = true ∧ stp.hasKey "value".toList = true then
          (match (env.select_option sel (stp.getD "value".toList .null) st).2 with
            | .ok _ => ((env.select_option sel (stp.getD "value".toList .null) st).1,
                some (.obj [(kStatus, .s "selected".toList), (kSelector, sel),
                  ("value".toList, stp.getD "value".toList .null)]), true)
            | .error e => ((env.select_option sel (stp.getD "value".toList .null) st).1,
                some (.obj [(kError, .s ("exception:".toList ++ e))]), false))
         else (st, some (.obj [(kError,
            .s "select_missing_selector_or_value".toList)]), true)) := by
      rcases htyp with h | h <;> subst h <;>
        ·unfold oneAttempt
         rw [if_neg (by decide), if_neg (by decide), if_neg (by decide),
           if_neg (by decide), if_neg (by decide), if_pos (by decide)]
         split
         · rfl
         · rfl
    rw [hsel]
    rcases hcase with hm | hok
    · rw [dif_neg hm]
    · by_cases hc : sel.truthy = true ∧ stp.hasKey "value".toList = true
      · rw [dif_pos hc, hok]
      · rw [dif_neg hc]
  · intro σ env stp sel val n res st hcase
    apply attemptLoop_one_of_brk
    unfold oneAttempt
    rw [if_neg (by decide), if_neg (by decide), if_neg (by decide),
      if_neg (by decide), if_neg (by decide), if_neg (by decide),
      if_pos (by decide)]
    rcases hcase with hm | hok
    · rw [if_neg hm]
    · by_cases hc : sel.truthy = true
      · rw [if_pos hc]
        simp only []
        rw [hok]
      · rw [if_neg hc]

/-- The plan step `{"action": "hover", "selector": "#x"}`. -/
def hoverHashX : JVal :=
  .obj [("action".toList, .s "hover".toList), (kSelector, .s "#x".toList)]

/-- Environment whose `hover` always raises. -/
def hoverRaiseEnv : Env Unit :=
  { trivEnv with hover := fun _ st => (st, .error "hoverboom".toList) }

/-- Counterexample to C10 as stated: when the driver's `hover` raises,
the exception handler replaces the result before the `break` is
reached, so the hover step is retried — 3 attempts are made, not 1,
and the inter-attempt pauses do happen. -/
theorem hover_exception_is_retried :
    execute_ui_plan hoverRaiseEnv (.arr [hoverHashX]) 2 () =
      .ok ((), .arr [.obj [("step_index".toList, .num 0),
        ("step".toList, hoverHashX),
        ("result".toList, .obj [(kError,
          .s "exception:hoverboom".toList)])]], [3], [true]) := rfl

/-- Witness for C10 at concrete inputs: an unknown kind and a
selector-less select step each make exactly one attempt. -/
theorem immediate_break_kinds_single_attempt_witness :
    (attemptLoop trivEnv (.obj []) (.s "dance".toList) .null .null 3 none ()).2.2
      = 1 ∧
    (attemptLoop trivEnv (.obj []) (.s "select".toList) .null .null 3 none ()).2.2
      = 1 :=
  ⟨immediate_break_kinds_single_attempt.1 Unit trivEnv (.obj [])
      (.s "dance".toList) .null .null 2 none () (by decide),
   immediate_break_kinds_single_attempt.2.1 Unit trivEnv (.obj [])
      .null .null 2 none () (.s "select".toList) (Or.inl rfl)
      (Or.inl (by decide))⟩

/- ----------------------------------------------------------------
json.loads, modelled for GeminiClient (src/Code/gemini_client.py).
Numbers are parsed exactly as rationals (Python parses fractional
literals to binary floats; no theorem below depends on float
rounding), and \uXXXX escapes are decoded without surrogate pairing.
---------------------------------------------------------------- -/

/-- The whitespace characters `json.loads` skips between tokens. -/
def jsonWs (c : Char) : Bool := c = ' ' ∨ c = '\t' ∨ c = '\n' ∨ c = '\r'

/-- Value of one hex digit. -/
def hexVal (c : Char) : Option Nat :=
  if '0' ≤ c ∧ c ≤ '9' then some (c.toNat - '0'.toNat)
  else if 'a' ≤ c ∧ c ≤ 'f' then some (c.toNat - 'a'.toNat + 10)
  else if 'A' ≤ c ∧ c ≤ 'F' then some (c.toNat - 'A'.toNat + 10)
  else none

/-- JSON string body (the opening quote already consumed): strict mode,
so raw control characters are rejected; the standard escapes are
decoded. Returns the decoded characters and the input after the
closing quote. -/
def jString : Nat → Str → Option (Str × Str)
  | 0, _ => none
  | fuel + 1, l =>
    match l with
    | [] => none
    | c :: rest =>
      if c = '\x22' then some ([], rest)
      else if c = '\\' then
        match rest with
        | '\x22' :: r2 => (jString fuel r2).map fun p => ('\x22' :: p.1, p.2)
        | '\\' :: r2 => (jString fuel r2).map fun p => ('\\' :: p.1, p.2)
        | '/' :: r2 => (jString fuel r2).map fun p => ('/' :: p.1, p.2)
        | 'b' :: r2 => (jString fuel r2).map fun p => ('\x08' :: p.1, p.2)
        | 'f' :: r2 => (jString fuel r2).map fun p => ('\x0c' :: p.1, p.2)
        | 'n' :: r2 => (jString fuel r2).map fun p => ('\n' :: p.1, p.2)
        | 'r' :: r2 => (jString fuel r2).map fun p => ('\r' :: p.1, p.2)
        | 't' :: r2 => (jString fuel r2).map fun p => ('\t' :: p.1, p.2)
        | 'u' :: a :: b2 :: c2 :: d :: r3 =>
          match hexVal a, hexVal b2, hexVal c2, hexVal d with
          | some x1, some x2, some x3, some x4 =>
            (jString fuel r3).map fun p =>
              (Char.ofNat (((x1 * 16 + x2) * 16 + x3) * 16 + x4) :: p.1, p.2)
          | _, _, _, _ => none
        | _ => none
      else if c.toNat < 32 then none
      else (jString fuel rest).map fun p => (c :: p.1, p.2)

/-- Numeric value of a run of decimal digits. -/
def digitsToNat (l : Str) : Nat :=
  l.foldl (fun acc c => acc * 10 + (c.toNat - '0'.toNat)) 0

/-- JSON number (sign, integer part without leading zeros, optional
fraction and exponent), as an exact rational. -/
def jNumber (l : Str) : Option (ℚ × Str) :=
  let signed := match l with
    | '-' :: r => (true, r)
    | _ => (false, l)
  match signed.2 with
  | [] => none
  | c :: _ =>
    if ¬ c.isDigit then none
    else
      let ds := signed.2.takeWhile Char.isDigit
      let r1 := signed.2.dropWhile Char.isDigit
      if 1 < ds.length ∧ ds.headD '0' = '0' then none
      else
        let ip : ℚ := (digitsToNat ds : ℚ)
        let fracStep : Option (ℚ × Str) := match r1 with
          | '.' :: r2 =>
            let fs := r2.takeWhile Char.isDigit
            if fs.isEmpty then none
            else some (ip + (digitsToNat fs : ℚ) / ((10 : ℚ) ^ fs.length),
              r2.dropWhile Char.isDigit)
          | _ => some (ip, r1)
        match fracStep with
        | none => none
        | some (m, r3) =>
          match r3 with
          | 'e' :: r4 | 'E' :: r4 =>
            let esigned : Bool × Str := match r4 with
              | '-' :: r5 => (true, r5)
              | '+' :: r5 => (false, r5)
              | _ => (false, r4)
            let es := esigned.2.takeWhile Char.isDigit
            if es.isEmpty then none
            else
              let e : ℤ := if esigned.1 then -(digitsToNat es : ℤ)
                else (digitsToNat es : ℤ)
              some ((if signed.1 then -m else m) * (10 : ℚ) ^ e,
                esigned.2.dropWhile Char.isDigit)
          | _ => some (if signed.1 then -m else m, r3)

mutual

/-- One JSON value, leading whitespace allowed; returns the remaining
input. -/
def jValue : Nat → Str → Option (JVal × Str)
  | 0, _ => none
  | fuel + 1, l =>
    let l1 := l.dropWhile jsonWs
    match l1 with
    | [] => none
    | c :: rest =>
      if c = '\x22' then
        (jString (rest.length + 1) rest).map fun p => (.s p.1, p.2)
      else if c = '[' then
        let r1 := rest.dropWhile jsonWs
        match r1 with
        | ']' :: r2 => some (.arr [], r2)
        | _ => (jItems fuel r1 []).map fun p => (.arr p.1, p.2)
      else if c = '\x7b' then
        let r1 := rest.dropWhile jsonWs
        match r1 with
        | '\x7d' :: r2 => some (.obj [], r2)
        | _ => (jPairs fuel r1 []).map fun p => (.obj p.1, p.2)
      else if c = 't' then
        match rest with
        | 'r' :: 'u' :: 'e' :: r2 => some (.b true, r2)
        | _ => none
      else if c = 'f' then
        match rest with
        | 'a' :: 'l' :: 's' :: 'e' :: r2 => some (.b false, r2)
        | _ => none
      else if c = 'n' then
        match rest with
        | 'u' :: 'l' :: 'l' :: r2 => some (.null, r2)
        | _ => none
      else
        (jNumber l1).map fun p => (.num p.1, p.2)

/-- Comma-separated array items up to the closing bracket. -/
def jItems : Nat → Str → List JVal → Option (List JVal × Str)
  | 0, _, _ => none
  | fuel + 1, l, acc =>
    match jValue fuel l with
    | none => none
    | some (v, r1) =>
      let r2 := r1.dropWhile jsonWs
      match r2 with
      | ',' :: r3 => jItems fuel r3 (acc ++ [v])
      | ']' :: r3 => some (acc ++ [v], r3)
      | _ => none

/-- Comma-separated object entries up to the closing brace; duplicate
keys take the last value, as Python dicts do. -/
def jPairs : Nat → Str → List (Str × JVal) → Option (List (Str × JVal) × Str)
  | 0, _, _ => none
  | fuel + 1, l, acc =>
    let l1 := l.dropWhile jsonWs
    match l1 with
    | '\x22' :: r1 =>
      match jString (r1.length + 1) r1 with
      | none => none
      | some (k, r2) =>
        let r3 := r2.dropWhile jsonWs
        match r3 with
        | ':' :: r4 =>
          match jValue fuel r4 with
          | none => none
          | some (v, r5) =>
            let acc2 := JVal.objInsert acc k v
            let r6 := r5.dropWhile jsonWs
            match r6 with
            | ',' :: r7 => jPairs fuel r7 acc2
            | '\x7d' :: r7 => some (acc2, r7)
            | _ => none
        | _ => none
    | _ => none

end

/-- `json.loads(text)`: one JSON document with optional surrounding
whitespace; trailing content is a parse error. -/
def json_loads (text : Str) : Option JVal :=
  match jValue (2 * text.length + 2) text with
  | none => none
  | some (v, rest) =>
    if (rest.dropWhile jsonWs).isEmpty then some v else none

/- ----------------------------------------------------------------
GeminiClient._extract_json_from_text  (gemini_client.py lines 89-111)
---------------------------------------------------------------- -/

/-- Prefix of `l` up to and including the LAST occurrence of `c`
(`none` when `c` does not occur). -/
def uptoLast (c : Char) (l : Str) : Option Str :=
  match l.reverse.dropWhile (fun x => x ≠ c) with
  | [] => none
  | r => some r.reverse

/-- `re.search(r"(\{[\s\S]*\}|\[[\s\S]*\])", text)`: the match starts
at the leftmost position where one alternative can match — a `{` with
some `}` later, or a `[` with some `]` later — and the greedy star
makes it end at the LAST such closing character in the text. Returns
the matched span. -/
def regexSearchSpan : Str → Option Str
  | [] => none
  | c :: rest =>
    if c = '\x7b' then
      match uptoLast '\x7d' rest with
      | some p => some (c :: p)
      | none => regexSearchSpan rest
    else if c = '[' then
      match uptoLast ']' rest with
      | some p => some (c :: p)
      | none => regexSearchSpan rest
    else regexSearchSpan rest

/-- `\w` of the repair regex. -/
def isWordChar (c : Char) : Bool := c.isAlphanum || c = '_'

/-- `json_str.replace("'", '"')`. -/
def singleToDouble (l : Str) : Str :=
  l.map fun c => if c = '\x27' then '\x22' else c

/-- Worker for the key-quoting repair: `acc` is the current maximal
word run (reversed order not needed; appended in order). At a colon
following a non-empty word run the run is wrapped in double quotes;
any other character flushes the run unchanged. -/
def qbk (acc : Str) : Str → Str
  | [] => acc
  | c :: rest =>
    if isWordChar c then qbk (acc ++ [c]) rest
    else if c = ':' ∧ acc ≠ [] then
      '\x22' :: (acc ++ '\x22' :: ':' :: qbk [] rest)
    else acc ++ c :: qbk [] rest

/-- `re.sub(r"(\w+):", r'"\1":', s)`: every maximal word run
immediately followed by a colon gets wrapped in double quotes (a run
not followed by a colon cannot match at any of its positions, since
the character after the run is the same for all of them). -/
def quoteBareKeys (l : Str) : Str := qbk [] l

/-- `GeminiClient._extract_json_from_text(text)` (lines 89-111): find
the greedy span, strictly parse it, on failure repair (single to
double quotes, quote bare keys) and parse again, `None` when both
fail or no span exists. -/
def extract_json_from_text (text : Str) : Option JVal :=
  match regexSearchSpan text with
  | none => none
  | some span =>
    match json_loads span with
    | some v => some v
    | none =>
      match json_loads (quoteBareKeys (singleToDouble span)) with
      | some v => some v
      | none => none

/-- The text-handling tail of `GeminiClient.plan_action` (lines 73-84)
on the non-empty candidate text: return the extraction when it
produced a value, otherwise try `json.loads` on the whole text,
otherwise wrap the raw text. Total — the Python original catches every
parse exception on this path. -/
def plan_action_text (text : Str) : JVal :=
  match extract_json_from_text text with
  | some v => v
  | none =>
    match json_loads text with
    | some v => v
    | none => .obj [("raw_text".toList, .s text)]

/-- Dropping over an all-satisfying prefix reaches the suffix. -/
theorem dropWhile_append_of_all (p : Char → Bool) (l1 l2 : Str)
    (h : l1.all p = true) :
    List.dropWhile p (l1 ++ l2) = List.dropWhile p l2 := by
  induction l1 with
  | nil => rfl
  | cons c r ih =>
    simp only [List.all_cons, Bool.and_eq_true] at h
    simp [List.dropWhile_cons, h.1, ih h.2]

/-- When the tail after an occurrence of `c` contains no further `c`,
the greedy prefix ends exactly at that occurrence. -/
theorem uptoLast_append (c : Char) (mid post : Str)
    (h : post.all (fun x => x ≠ c) = true) :
    uptoLast c (mid ++ c :: post) = some (mid ++ [c]) := by
  unfold uptoLast
  have hrev : (mid ++ c :: post).reverse = post.reverse ++ c :: mid.reverse := by
    simp
  rw [hrev]
  rw [dropWhile_append_of_all _ _ _ (by simpa using h)]
  rw [List.dropWhile_cons]
  simp

/-- A prefix free of opening delimiters is scanned past. -/
theorem regexSearchSpan_skip (pre l : Str)
    (h : pre.all (fun c => c ≠ '\x7b' ∧ c ≠ '[') = true) :
    regexSearchSpan (pre ++ l) = regexSearchSpan l := by
  induction pre with
  | nil => rfl
  | cons c r ih =>
    simp only [List.all_cons, Bool.and_eq_true, decide_eq_true_eq] at h
    rw [List.cons_append]
    conv_lhs => unfold regexSearchSpan
    rw [if_neg h.1.1, if_neg h.1.2]
    exact ih h.2

/-- The greedy regex finds exactly the embedded span when the prose
before it has no opening delimiter and the prose after it no closing
one. -/
theorem regexSearchSpan_finds (pre mid post body : Str)
    (hpre : pre.all (fun c => c ≠ '\x7b' ∧ c ≠ '[') = true)
    (hpost : post.all (fun c => c ≠ '\x7d' ∧ c ≠ ']') = true)
    (hbody : body = '\x7b' :: (mid ++ ['\x7d']) ∨
      body = '[' :: (mid ++ [']'])) :
    regexSearchSpan (pre ++ body ++ post) = some body := by
  have hpost1 : post.all (fun x => x ≠ '\x7d') = true := by
    rw [List.all_eq_true] at hpost ⊢
    intro x hx
    have := hpost x hx
    simp only [decide_eq_true_eq] at this ⊢
    exact this.1
  have hpost2 : post.all (fun x => x ≠ ']') = true := by
    rw [List.all_eq_true] at hpost ⊢
    intro x hx
    have := hpost x hx
    simp only [decide_eq_true_eq] at this ⊢
    exact this.2
  rw [List.append_assoc, regexSearchSpan_skip pre _ hpre]
  rcases hbody with hb | hb <;> subst hb
  · have : ('\x7b' :: (mid ++ ['\x7d'])) ++ post =
        '\x7b' :: (mid ++ '\x7d' :: post) := by simp
    rw [this]
    unfold regexSearchSpan
    rw [if_pos rfl, uptoLast_append '\x7d' mid post hpost1]
  · have : ('[' :: (mid ++ [']'])) ++ post =
        '[' :: (mid ++ ']' :: post) := by simp
    rw [this]
    unfold regexSearchSpan
    rw [if_neg (by decide), if_pos rfl, uptoLast_append ']' mid post hpost2]

/-- C3 (amended): (i) the extraction step recovers an embedded JSON
object or array exactly when the greedy span — from the first opening
`{`/`[` to the LAST closing `}`/`]` — is that structure; in particular
for every text `pre ++ body ++ post` where `pre` contains no opening
delimiter, `post` no closing one, and the balanced `body` parses
strictly to `v`, the planner-response handling returns exactly `v`;
(ii) for every text with no extractable span and not itself JSON, the
call returns `{"raw_text": text}`. The handling is a total function —
no exception escapes — but the original claim's "first balanced span"
reading fails because the regex star is greedy (see the
counterexample). -/
theorem extraction_recovers_embedded_json :
    (∀ (pre mid post body : Str) (v : JVal),
      pre.all (fun c => c ≠ '\x7b' ∧ c ≠ '[') = true →
      post.all (fun c => c ≠ '\x7d' ∧ c ≠ ']') = true →
      (body = '\x7b' :: (mid ++ ['\x7d']) ∨ body = '[' :: (mid ++ [']'])) →
      json_loads body = some v →
      plan_action_text (pre ++ body ++ post) = v) ∧
    (∀ text : Str, extract_json_from_text text = none →
      json_loads text = none →
      plan_action_text text = .obj [("raw_text".toList, .s text)]) := by
  constructor
  · intro pre mid post body v hpre hpost hbody hparse
    unfold plan_action_text extract_json_from_text
    rw [regexSearchSpan_finds pre mid post body hpre hpost hbody]
    simp only []
    rw [hparse]
  · intro text hex hloads
    unfold plan_action_text
    rw [hex]
    simp only []
    rw [hloads]

/-- Witness for C3: a JSON object embedded in prose with no other
delimiters is recovered exactly, and a plain prose reply is wrapped as
raw text. -/
theorem extraction_recovers_embedded_json_witness :
    plan_action_text ("x ".toList ++ "\x7b\x22k\x22: true\x7d".toList
        ++ " y".toList) = .obj [("k".toList, .b true)] ∧
    plan_action_text "hello".toList =
      .obj [("raw_text".toList, .s "hello".toList)] :=
  ⟨extraction_recovers_embedded_json.1 "x ".toList "\x22k\x22: true".toList
      " y".toList "\x7b\x22k\x22: true\x7d".toList (.obj [("k".toList, .b true)])
      (by decide) (by decide) (Or.inl (by decide)) rfl,
   extraction_recovers_embedded_json.2 "hello".toList rfl rfl⟩

/-- Counterexample to C3 as stated: the text
`pre {"a": 1} mid {"b": 2}` contains the JSON object `{"a": 1}`
embedded in prose, yet the call returns the raw-text wrapper — the
greedy regex grabs from the first `{` to the last `}`, the repair
cannot fix the prose in between, and the whole text is not JSON. The
extraction therefore does not locate the first balanced span. -/
theorem extraction_greedy_counterexample :
    ("pre \x7b\x22a\x22: 1\x7d mid \x7b\x22b\x22: 2\x7d".toList =
      "pre ".toList ++ "\x7b\x22a\x22: 1\x7d".toList ++
        " mid \x7b\x22b\x22: 2\x7d".toList) ∧
    json_loads "\x7b\x22a\x22: 1\x7d".toList =
      some (.obj [("a".toList, .num 1)]) ∧
    plan_action_text "pre \x7b\x22a\x22: 1\x7d mid \x7b\x22b\x22: 2\x7d".toList =
      .obj [("raw_text".toList,
        .s "pre \x7b\x22a\x22: 1\x7d mid \x7b\x22b\x22: 2\x7d".toList)] :=
  ⟨rfl, rfl, rfl⟩

/- ----------------------------------------------------------------
Agent.run  (src/Code/agent.py lines 148-299) and its collaborators.
---------------------------------------------------------------- -/

/-- Segments of the UI-plan prompt template (prompts.py lines 56-80);
the constant example plan is rendered as `json.dumps(example,
ensure_ascii=False, indent=2)` produces it. -/
def uiSeg1 : Str :=
  "\n    You are a precise browser automation planner. The user task is:\n    ".toList

def uiSeg2 : Str :=
  "\n\n    Here is the current DOM snapshot (trimmed):\n    ".toList

def uiSeg3 : Str :=
  "\n\n    Produce a JSON array (and ONLY a JSON array) of step objects. Each step object must include:\n      - \x22action\x22: one of [\x22click\x22,\x22type\x22,\x22select\x22,\x22wait\x22,\x22press\x22,\x22scroll\x22,\x22hover\x22]\n      - \x22selector\x22: CSS selector to target the element (required for click/type/select/hover)\n      - For typing/select: \x22value\x22 (or \x22text\x22)\n      - \x22desc\x22: short human-readable micro-detailed description of the step\n\n    Important constraints:\n    - Do NOT return navigation by constructing or changing the URL. Use in-page actions only (clicks, presses).\n    - Each step must be atomic and micro-detailed (no merging steps).\n    - Prefer stable selectors (data- attributes, role-based selectors). If impossible, use CSS that clearly targets the intended element.\n    - If waiting for elements is necessary, include an explicit step with action \x22wait\x22 and \x22selector\x22 or \x22seconds\x22.\n    - Keep the plan focused to complete the user\x27s high-level task without side effects.\n\n    Example output (strict JSON):\n    [\n  \x7b\n    \x22action\x22: \x22click\x22,\n    \x22selector\x22: \x22button[data-testid=\x27new-project\x27]\x22,\n    \x22desc\x22: \x22Click the New Project button to open the \x27Create project\x27 modal\x22\n  \x7d,\n  \x7b\n    \x22action\x22: \x22type\x22,\n    \x22selector\x22: \x22input[name=\x27name\x27]\x22,\n    \x22value\x22: \x22AI Test Project\x22,\n    \x22desc\x22: \x22Type the project name into the name input\x22\n  \x7d,\n  \x7b\n    \x22action\x22: \x22click\x22,\n    \x22selector\x22: \x22button[type=\x27submit\x27]\x22,\n    \x22desc\x22: \x22Click the Create/Save button to create the project\x22\n  \x7d\n]\n\n    Return only JSON.\n    ".toList

/-- `build_ui_plan_prompt(task, dom_snapshot)` (prompts.py lines
28-81). -/
def build_ui_plan_prompt (task dom : Str) : Str :=
  stripChars pyIsSpace (dedent (uiSeg1 ++ task ++ uiSeg2 ++ dom.take 16000
    ++ uiSeg3))

/-- Tail of the base-URL prompt (agent.py lines 189-193). -/
def basePromptSeg : Str :=
  "\nRespond with ONLY the clean base website URL (e.g., https://linear.app) where this task would be performed. Do not include /login or any explanations — only the root URL.".toList

/-- Tail of the task-URL prompt (agent.py lines 242-246). -/
def taskUrlPromptSeg : Str :=
  "\nYou are to output ONLY the clean, fully qualified URL (https...) where this task can be done. Do not include quotes, backticks, or explanations — just the URL itself.".toList

/-- A character allowed inside the `[^\s'\"]+` body of the URL-rescue
regex. -/
def urlBodyChar (c : Char) : Bool :=
  ¬ pyIsSpace c ∧ c ≠ '\x27' ∧ c ≠ '\x22'

/-- Try the `https?://`-anchored match at the current position (the
optional `s` is greedy, so `https://` is tried first); the body needs
at least one character. -/
def matchHttpAt (l : Str) : Option Str :=
  if "https://".toList.isPrefixOf l then
    let body := (l.drop 8).takeWhile urlBodyChar
    if body.isEmpty then none else some ("https://".toList ++ body)
  else if "http://".toList.isPrefixOf l then
    let body := (l.drop 7).takeWhile urlBodyChar
    if body.isEmpty then none else some ("http://".toList ++ body)
  else none

/-- `re.search(r"https?://[^\s'\"]+", s)` (agent.py line 204): the
leftmost match. -/
def reFindHttpUrl : Str → Option Str
  | [] => none
  | c :: rest =>
    match matchHttpAt (c :: rest) with
    | some m => some m
    | none => reFindHttpUrl rest

/-- `s.rstrip('/')`. -/
def rstripSlash (l : Str) : Str :=
  (l.reverse.dropWhile (fun c => c = '/')).reverse

/-- Observable milestones of one `Agent.run`. -/
inductive AgentEv where
  | probe (result : Bool) : AgentEv
  | showLogin : AgentEv
  | saveCookies : AgentEv
  | planRequested : AgentEv
  | planExecStarted : AgentEv
  deriving DecidableEq, Repr

/-- The driver plus the run-level collaborators `Agent.run` needs: the
filesystem, wall clock, login heuristics and metadata writer. All the
operations that the Python side wraps in its own `try`/`except`
(`goto`, `is_logged_in`, cookie handling, `save_storage_state`,
`save_step_metadata`) are total here for that reason. -/
structure RunEnv (σ : Type) where
  drv : Env σ
  /-- `os.path.exists(cookies_path)` (read-only). -/
  path_exists : σ → Bool
  /-- `preload_cookies` (catches internally). -/
  preload_cookies : σ → σ
  /-- `os.remove(cookies_path)`. -/
  os_remove : σ → σ
  /-- `PlaywrightController.goto` (catches internally). -/
  goto : Str → σ → σ
  /-- `is_logged_in` (catches internally). -/
  is_logged_in : σ → σ × Bool
  show_login_prompt : σ → σ
  remove_login_prompt : σ → σ
  /-- `save_storage_state` (catches internally). -/
  save_storage : σ → σ
  /-- agent-level `time.sleep`; the argument is in whole seconds, as
  every agent-level sleep in the source is. -/
  sleepSecs : Int → σ → σ
  /-- `time.time()`, modelled in integer seconds — only the comparison
  against the 120-second deadline depends on it. -/
  clock : σ → Int
  /-- `self.controller.page.url`. -/
  page_url : σ → Str
  /-- `save_step_metadata` (file I/O only). -/
  save_meta : σ → σ

/-- The agent's mutable state: the controller's capture state and
`self.last_dom_snapshot`. The browser/context/page created at the top
of `run` are part of the initial world. -/
structure AgentState (σ : Type) where
  cap : CapState σ
  lastDom : Option Str

/-- Replace the world component of the agent state. -/
def updDrv {σ : Type} (st : AgentState σ) (d : σ) : AgentState σ :=
  ⟨⟨st.cap.outdir, st.cap.captured, d⟩, st.lastDom⟩

/-- Lines 173-184: cookie replay. Returns the world, whether the
session authenticated, and the probe trace. An empty `start_url`
models Python `None` falling back to Google at line 176 (`goto`
rejects both the same way). -/
def cookiePhase {σ : Type} (env : RunEnv σ) (start_url : Str) (st : σ) :
    σ × Bool × List AgentEv :=
  if env.path_exists st then
    let st1 := env.preload_cookies st
    let st2 := env.goto
      (if start_url.isEmpty then "https://www.google.com".toList else start_url)
      st1
    let st3 := env.sleepSecs 3 st2
    let pr := env.is_logged_in st3
    if pr.2 then (pr.1, true, [.probe true])
    else (env.os_remove pr.1, false, [.probe false])
  else (st, false, [])

/-- Lines 188-216: ask the planner for a base URL, rescue the first
`http(s)://` span from non-JSON replies, validate with `_clean_url`
(defaulting to Google), and build `<base>/login`. A truthy non-string
`url` field reaches `re.search` and raises `TypeError`. -/
def baseUrlStep {σ : Type} (env : RunEnv σ) (task : Str) (st : σ) :
    Except PyExn (Str × σ) :=
  let pr := env.drv.plan_action ("Task: ".toList ++ task ++ basePromptSeg) st
  let base_url : JVal :=
    if pr.2.isObj then
      (pr.2.get "url".toList).pyOr
        (.s (stripChars pyIsSpace (pyStr (pr.2.getD "raw_text".toList (.s [])))))
    else .s (stripChars pyIsSpace (pyStr pr.2))
  match base_url with
  | .s bu =>
    let bu2 := match reFindHttpUrl bu with
      | some m => m
      | none => bu
    let cleaned := clean_url bu2
    let baseF := if cleaned.isEmpty then "https://www.google.com".toList
      else cleaned
    .ok (rstripSlash baseF ++ "/login".toList, pr.1)
  | _ => .error .typeError

/-- Lines 219-232: poll `is_logged_in` every 3 seconds until the
120-second deadline; on the first success remove the banner and
persist the session. `none` means the given iteration budget did not
settle the loop (a model artifact — the Python loop runs until the
clock condition fails). -/
def loginLoop {σ : Type} (env : RunEnv σ) :
    Nat → Int → σ → Option (σ × Bool × List AgentEv)
  | 0, _, _ => none
  | fuel + 1, t0, st =>
    if env.clock st - t0 < 120 then
      let pr := env.is_logged_in st
      if pr.2 then
        some (env.save_storage (env.remove_login_prompt pr.1), true,
          [.probe true, .saveCookies])
      else
        match loginLoop env fuel t0 (env.sleepSecs 3 pr.1) with
        | none => none
        | some p => some (p.1, p.2.1, .probe false :: p.2.2)
    else some (st, false, [])

/-- `Agent._capture_unique_state(label)` (lines 134-146): read the DOM
(failure degrades to an empty placeholder), skip the capture when it is
byte-identical to the last snapshot, otherwise record it and delegate
to `capture`. -/
def capture_unique {σ : Type} (env : RunEnv σ) (st : AgentState σ)
    (label : Str) : AgentState σ × (Str × Option Str) :=
  let c := env.drv.content st.cap.drv
  match c.2 with
  | .error _ => (updDrv st c.1, ([], none))
  | .ok dom =>
    if st.lastDom = some dom then (updDrv st c.1, (dom, none))
    else
      let cp := capture env.drv ⟨st.cap.outdir, st.cap.captured, c.1⟩ label
      (⟨cp.1, some dom⟩, cp.2.1)

/-- Lines 281-291: normalize the planner's plan reply — a string is
strictly parsed (failure is the `ui_plan_not_parseable` error carrying
the raw string), a dict is probed for `plan`/`steps`, anything else
passes through. -/
def normalizePlanResp (v : JVal) : Except Str JVal :=
  match v with
  | .s txt =>
    match json_loads txt with
    | some p => .ok p
    | none => .error txt
  | .obj _ => .ok ((v.get "plan".toList).pyOr ((v.get "steps".toList).pyOr v))
  | _ => .ok v

/-- Lines 240-299: the authenticated tail of `run` — task URL, task
page navigation and captures, metadata, UI-plan request, plan
normalization and execution, final report. `tr0` is the trace
accumulated by the login phases. The bare `page.content()` at line 278
sits outside every `try`: a driver failure there aborts the run. -/
def afterLogin {σ : Type} (env : RunEnv σ) (start_url task : Str)
    (st : AgentState σ) (tr0 : List AgentEv) :
    Option (Except PyExn (JVal × AgentState σ × List AgentEv)) :=
  let pr := env.drv.plan_action ("Task: ".toList ++ task ++ taskUrlPromptSeg)
    st.cap.drv
  let tsu : JVal :=
    if pr.2.isObj then
      (pr.2.get "url".toList).pyOr
        (.s (stripChars pyIsSpace (pyStr (pr.2.getD "raw_text".toList (.s [])))))
    else .s (stripChars pyIsSpace (pyStr pr.2))
  match clean_url_val tsu with
  | .error e => some (.error e)
  | .ok cleaned =>
    let task_url := if cleaned.isEmpty then env.page_url pr.1 else cleaned
    let s6 := env.goto task_url pr.1
    let cu := capture_unique env (updDrv st s6) "task_page_loaded".toList
    let cp := capture env.drv cu.1.cap "aligned_authenticated_page".toList
    let s7 := env.save_meta cp.1.drv
    let step_meta := JVal.obj [("step".toList, .num 0),
      ("action".toList, .s "task_page_ready".toList),
      ("url".toList, .s task_url)]
    let c2 := env.drv.content s7
    match c2.2 with
    | .error e => some (.error (.pageError e))
    | .ok dom =>
      let pu := env.drv.plan_action (build_ui_plan_prompt task dom) c2.1
      match normalizePlanResp pu.2 with
      | .error raw =>
        some (.ok (.obj [(kError, .s "ui_plan_not_parseable".toList),
          ("raw".toList, .s raw)],
          ⟨⟨cu.1.cap.outdir, cp.1.captured, pu.1⟩, cu.1.lastDom⟩,
          tr0 ++ [.planRequested]))
      | .ok plan =>
        match execute_ui_plan env.drv plan 2 pu.1 with
        | .error e => some (.error e)
        | .ok out =>
          some (.ok (.obj [("task".toList, .s task),
            ("start_url".toList, .s start_url),
            ("steps".toList, .arr [step_meta,
              .obj [("ui_plan_execution".toList, out.2.1)]])],
            ⟨⟨cu.1.cap.outdir, cp.1.captured, out.1⟩, cu.1.lastDom⟩,
            tr0 ++ [.planRequested, .planExecStarted]))

/-- `Agent.run(start_url, task)` (lines 148-299): navigate to the start
URL, authenticate by cookie replay or manual login (timeout →
`{"error": "login_timeout"}`), then run the authenticated tail.
`fuel` bounds the login-poll iterations (`none` = undetermined within
the budget). -/
def agent_run {σ : Type} (env : RunEnv σ) (start_url task : Str)
    (fuel : Nat) (st0 : AgentState σ) :
    Option (Except PyExn (JVal × AgentState σ × List AgentEv)) :=
  let s1 := env.goto start_url st0.cap.drv
  let s2 := env.sleepSecs 2 s1
  let ck := cookiePhase env start_url s2
  if ck.2.1 then afterLogin env start_url task (updDrv st0 ck.1) ck.2.2
  else
    match baseUrlStep env task ck.1 with
    | .error e => some (.error e)
    | .ok lu =>
      let s4 := env.show_login_prompt (env.goto lu.1 lu.2)
      match loginLoop env fuel (env.clock s4) s4 with
      | none => none
      | some lp =>
        if lp.2.1 then
          afterLogin env start_url task (updDrv st0 lp.1)
            (ck.2.2 ++ .showLogin :: lp.2.2)
        else
          some (.ok (.obj [(kError, .s "login_timeout".toList)],
            updDrv st0 (env.remove_login_prompt lp.1),
            ck.2.2 ++ .showLogin :: lp.2.2))

/-- Events the login phases can emit (no plan activity). -/
def probeLike : AgentEv → Bool
  | .probe _ => true
  | .saveCookies => true
  | .showLogin => true
  | _ => false

theorem cookiePhase_trace_probeLike {σ : Type} (env : RunEnv σ)
    (su : Str) (st : σ) :
    ∀ e ∈ (cookiePhase env su st).2.2, probeLike e = true := by
  intro e he
  unfold cookiePhase at he
  simp only [] at he
  repeat' split at he
  all_goals simp at he
  all_goals (subst he; rfl)

theorem cookiePhase_true_trace {σ : Type} (env : RunEnv σ)
    (su : Str) (st : σ) (h : (cookiePhase env su st).2.1 = true) :
    (cookiePhase env su st).2.2 = [.probe true] := by
  unfold cookiePhase at h ⊢
  simp only [] at h ⊢
  repeat' split at h
  all_goals simp_all

theorem loginLoop_trace_probeLike {σ : Type} (env : RunEnv σ) :
    ∀ (fuel : Nat) (t0 : Int) (st : σ) (p : σ × Bool × List AgentEv),
      loginLoop env fuel t0 st = some p → ∀ e ∈ p.2.2, probeLike e = true := by
  intro fuel
  induction fuel with
  | zero => intro t0 st p h; cases h
  | succ n ih =>
    intro t0 st p h
    unfold loginLoop at h
    simp only [] at h
    split at h
    · split at h
      · injection h with h'
        subst h'
        intro e he
        simp at he
        rcases he with he | he <;> (subst he; rfl)
      · split at h
        · cases h
        · rename_i p' hp'
          injection h with h'
          subst h'
          intro e he
          simp only [List.mem_cons] at he
          rcases he with he | he
          · subst he; rfl
          · exact ih _ _ _ hp' e he
    · injection h with h'
      subst h'
      intro e he
      simp at he

theorem loginLoop_true_probe {σ : Type} (env : RunEnv σ) :
    ∀ (fuel : Nat) (t0 : Int) (st : σ) (p : σ × Bool × List AgentEv),
      loginLoop env fuel t0 st = some p → p.2.1 = true →
      AgentEv.probe true ∈ p.2.2 := by
  intro fuel
  induction fuel with
  | zero => intro t0 st p h; cases h
  | succ n ih =>
    intro t0 st p h hb
    unfold loginLoop at h
    simp only [] at h
    split at h
    · split at h
      · injection h with h'
        subst h'
        simp
      · split at h
        · cases h
        · rename_i p' hp'
          injection h with h'
          subst h'
          simp only [List.mem_cons]
          exact Or.inr (ih _ _ _ hp' hb)
    · injection h with h'
      subst h'
      simp at hb

/-- Every normal completion of the authenticated tail extends the
login trace. -/
theorem afterLogin_trace_suffix {σ : Type} (env : RunEnv σ)
    (su task : Str) (st : AgentState σ) (tr0 : List AgentEv) (res : JVal)
    (st' : AgentState σ) (tr : List AgentEv)
    (h : afterLogin env su task st tr0 = some (.ok (res, st', tr))) :
    ∃ suf, tr = tr0 ++ suf := by
  unfold afterLogin at h
  simp only [] at h
  split at h
  · simp at h
  · split at h
    · simp at h
    · split at h
      · injection h with h'
        injection h' with h''
        injection h'' with h1 h2
        injection h2 with h3 h4
        subst h4
        exact ⟨[.planRequested], rfl⟩
      · split at h
        · simp at h
        · injection h with h'
          injection h' with h''
          injection h'' with h1 h2
          injection h2 with h3 h4
          subst h4
          exact ⟨[.planRequested, .planExecStarted], rfl⟩

/-- C4 (amended): (i) when no cookie session is established, the
planner's base-URL reply is textual enough for the URL-extraction step
to complete (its `url` field, when truthy, is a string — a non-string
there makes `re.search` raise `TypeError`, see the counterexample),
and the manual-login probe never succeeds before the 120-second
deadline, the run returns exactly `{"error": "login_timeout"}` and no
plan is requested or executed; (ii) in every normally completed run,
plan execution only happens after some authentication probe has
succeeded. -/
theorem login_timeout_aborts_run :
    (∀ (σ : Type) (env : RunEnv σ) (start_url task : Str) (fuel : Nat)
      (st0 : AgentState σ) (s3 : σ) (trc : List AgentEv) (lu : Str × σ)
      (lp : σ × Bool × List AgentEv),
      cookiePhase env start_url
        (env.sleepSecs 2 (env.goto start_url st0.cap.drv)) = (s3, false, trc) →
      baseUrlStep env task s3 = .ok lu →
      loginLoop env fuel
        (env.clock (env.show_login_prompt (env.goto lu.1 lu.2)))
        (env.show_login_prompt (env.goto lu.1 lu.2)) = some lp →
      lp.2.1 = false →
      agent_run env start_url task fuel st0 =
        some (.ok (.obj [(kError, .s "login_timeout".toList)],
          updDrv st0 (env.remove_login_prompt lp.1),
          trc ++ .showLogin :: lp.2.2)) ∧
      AgentEv.planRequested ∉ trc ++ .showLogin :: lp.2.2 ∧
      AgentEv.planExecStarted ∉ trc ++ .showLogin :: lp.2.2) ∧
    (∀ (σ : Type) (env : RunEnv σ) (start_url task : Str) (fuel : Nat)
      (st0 : AgentState σ) (res : JVal) (st' : AgentState σ)
      (tr : List AgentEv),
      agent_run env start_url task fuel st0 = some (.ok (res, st', tr)) →
      AgentEv.planExecStarted ∈ tr → AgentEv.probe true ∈ tr) := by
  constructor
  · intro σ env start_url task fuel st0 s3 trc lu lp hck hbase hloop hfail
    have hmem : ∀ ev : AgentEv, probeLike ev = false →
        ev ∉ trc ++ .showLogin :: lp.2.2 := by
      intro ev hev hin
      simp only [List.mem_append, List.mem_cons] at hin
      rcases hin with hin | hin | hin
      · have := cookiePhase_trace_probeLike env start_url
          (env.sleepSecs 2 (env.goto start_url st0.cap.drv)) ev (by rw [hck]; exact hin)
        rw [this] at hev
        cases hev
      · subst hin
        cases hev
      · have := loginLoop_trace_probeLike env fuel
          (env.clock (env.show_login_prompt (env.goto lu.1 lu.2)))
          (env.show_login_prompt (env.goto lu.1 lu.2)) lp hloop ev hin
        rw [this] at hev
        cases hev
    refine ⟨?_, hmem _ rfl, hmem _ rfl⟩
    unfold agent_run
    simp only []
    rw [hck]
    simp only []
    rw [hbase]
    simp only []
    rw [hloop]
    simp only []
    rw [hfail]
    simp only [Bool.false_eq_true, if_false]
  · intro σ env start_url task fuel st0 res st' tr h hexec
    unfold agent_run at h
    simp only [] at h
    split at h
    · rename_i hcktrue
      obtain ⟨suf, hsuf⟩ := afterLogin_trace_suffix env start_url task _ _ _ _ _ h
      subst hsuf
      have := cookiePhase_true_trace env start_url
        (env.sleepSecs 2 (env.goto start_url st0.cap.drv)) hcktrue
      rw [this]
      simp
    · split at h
      · simp at h
      · split at h
        · cases h
        · rename_i lu hlu lp hlp
          split at h
          · rename_i hltrue
            obtain ⟨suf, hsuf⟩ :=
              afterLogin_trace_suffix env start_url task _ _ _ _ _ h
            subst hsuf
            have := loginLoop_true_probe env fuel _ _ lp hlp hltrue
            simp only [List.mem_append, List.mem_cons]
            exact Or.inl (Or.inr (Or.inr this))
          · injection h with h'
            injection h' with h''
            injection h'' with h1 h2
            injection h2 with h3 h4
            subst h4
            exfalso
            simp only [List.mem_append, List.mem_cons] at hexec
            rcases hexec with hin | hin | hin
            · have := cookiePhase_trace_probeLike env start_url
                (env.sleepSecs 2 (env.goto start_url st0.cap.drv)) _ hin
              cases this
            · cases hin
            · have := loginLoop_trace_probeLike env fuel _ _ lp hlp _ hin
              cases this

/-- Driver whose planner replies `{"url": 5}` to every prompt. -/
def c4Drv : Env Unit :=
  { trivEnv with plan_action := fun _ st => (st, .obj [("url".toList, .num 5)]) }

/-- Run environment with no cookie file and a numeric base-URL reply. -/
def c4Env : RunEnv Unit where
  drv := c4Drv
  path_exists := fun _ => false
  preload_cookies := fun st => st
  os_remove := fun st => st
  goto := fun _ st => st
  is_logged_in := fun st => (st, false)
  show_login_prompt := fun st => st
  remove_login_prompt := fun st => st
  save_storage := fun st => st
  sleepSecs := fun _ st => st
  clock := fun _ => 0
  page_url := fun _ => []
  save_meta := fun st => st

/-- Counterexample to C4 as stated: with no cookie file and a planner
base-URL reply `{"url": 5}`, the run raises `TypeError` at
`re.search` (agent.py line 204) before the login poll ever starts —
the probe never succeeds within the timeout, yet the run does not
return `{"error": "login_timeout"}`. -/
theorem base_url_type_confusion_aborts :
    agent_run c4Env "u".toList "t".toList 5 ⟨⟨[], [], ()⟩, none⟩ =
      some (.error .typeError) := rfl

/-- Timeout environment over rational wall-clock time: no cookie file,
a clean textual base URL, a probe that never succeeds, and sleeps that
advance the clock. -/
def tmoEnv : RunEnv Int where
  drv := { page_fill := fun _ _ st => (st, .ok ())
           query_selector := fun _ st => (st, .ok false)
           el_click := fun _ st => (st, .ok ())
           el_fill := fun _ st => (st, .ok ())
           key_press := fun _ st => (st, .ok ())
           evaluate := fun _ st => (st, .ok ())
           wait_sleep := fun _ st => (st, .ok ())
           pause := fun st => st
           select_option := fun _ _ st => (st, .ok ())
           hover := fun _ st => (st, .ok ())
           content := fun st => (st, .ok [])
           screenshot := fun _ st => (st, .ok ())
           plan_action := fun _ st =>
             (st, .obj [("url".toList, .s "https://ex.com".toList)]) }
  path_exists := fun _ => false
  preload_cookies := fun st => st
  os_remove := fun st => st
  goto := fun _ st => st
  is_logged_in := fun st => (st, false)
  show_login_prompt := fun st => st
  remove_login_prompt := fun st => st
  save_storage := fun st => st
  sleepSecs := fun q st => st + q
  clock := fun st => st
  page_url := fun _ => []
  save_meta := fun st => st

/-- Authenticated environment whose planner replies prose, driving a
full run through plan request and execution. -/
def e2Env : RunEnv Unit where
  drv := { trivEnv with plan_action := fun _ st =>
    (st, .obj [("raw_text".toList, .s "x".toList)]) }
  path_exists := fun _ => true
  preload_cookies := fun st => st
  os_remove := fun st => st
  goto := fun _ st => st
  is_logged_in := fun st => (st, true)
  show_login_prompt := fun st => st
  remove_login_prompt := fun st => st
  save_storage := fun st => st
  sleepSecs := fun _ st => st
  clock := fun _ => 0
  page_url := fun _ => []
  save_meta := fun st => st

/-- Witness for C4: at `tmoEnv` the probe times out after 40 polls and
the run returns the timeout error with no plan activity; at `e2Env` a
completed run's plan execution is preceded by a successful probe. -/
theorem login_timeout_aborts_run_witness :
    (agent_run tmoEnv "u".toList "t".toList 50 ⟨⟨[], [], (0 : Int)⟩, none⟩ =
      some (.ok (.obj [(kError, .s "login_timeout".toList)],
        updDrv ⟨⟨[], [], (0 : Int)⟩, none⟩
          (tmoEnv.remove_login_prompt (122 : Int)),
        ([] : List AgentEv) ++
          .showLogin :: List.replicate 40 (AgentEv.probe false))) ∧
      AgentEv.planRequested ∉ ([] : List AgentEv) ++
        .showLogin :: List.replicate 40 (AgentEv.probe false) ∧
      AgentEv.planExecStarted ∉ ([] : List AgentEv) ++
        .showLogin :: List.replicate 40 (AgentEv.probe false)) ∧
    AgentEv.probe true ∈
      [AgentEv.probe true, AgentEv.planRequested, AgentEv.planExecStarted] :=
  ⟨login_timeout_aborts_run.1 Int tmoEnv "u".toList "t".toList 50
      ⟨⟨[], [], (0 : Int)⟩, none⟩ (2 : Int) []
      ("https://ex.com/login".toList, (2 : Int))
      ((122 : Int), false, List.replicate 40 (AgentEv.probe false))
      (by decide) rfl (by decide) rfl,
   login_timeout_aborts_run.2 Unit e2Env "u".toList "t".toList 1
      ⟨⟨[], [], ()⟩, none⟩
      (.obj [("task".toList, .s "t".toList),
        ("start_url".toList, .s "u".toList),
        ("steps".toList, .arr [
          .obj [("step".toList, .num 0),
            ("action".toList, .s "task_page_ready".toList),
            ("url".toList, .s [])],
          .obj [("ui_plan_execution".toList,
            .obj [(kError, .s "ui_plan_not_list".toList),
              ("raw".toList, .obj [("raw_text".toList, .s "x".toList)])])]])])
      ⟨⟨[], ["aligned_authenticated_page".toList, "task_page_loaded".toList],
        ()⟩, some []⟩
      [.probe true, .planRequested, .planExecStarted]
      rfl (by decide)⟩
